import Mathlib

/-!
gdalwrap: the `gdal` raster store (`include/gdalwrap/gdal.hpp`)

A shallow embedding of the `gdalwrap::gdal` class and of its helpers.

Modelling conventions
* `double` and `float` values are rationals (`ℚ`): there is no NaN and no
  infinity. `index_raster`, `index_utm` and `vfloat2vuchar` compute in exact
  arithmetic; `index_raster_double`, `index_utm_double` and
  `vfloat2vuchar_float` round every operation as the source does (`fl64`,
  `fl32`).
* `size_t` values are natural numbers; where the source multiplies two of them
  the product is reduced modulo `2 ^ 64`.
* `std::vector<T>` is `List T`; `std::vector::resize` is `vresize`.
* a member function that mutates `*this` is a function from the store before
  the call to the store after the call.
* a member function that can throw returns `Except Error _`.
* a function whose behaviour can be undefined (a conversion of a floating-point
  value that the integer type cannot hold, a read past the end of a vector)
  returns `Option _`, with `none` for the undefined behaviour.
-/

namespace gdalwrap

/-- Number of values of the 64-bit `size_t`. -/
def SIZE_MOD : Nat := 2 ^ 64

/-- `typedef std::vector<float> raster;` -/
abbrev raster := List ℚ

/-- `typedef std::vector<raster> rasters;` -/
abbrev rasters := List raster

/-- The C++ standard library's `std::vector::resize(n)`: the first `n` elements
are kept, and when the vector was shorter it is padded up to `n` elements with
value-initialised elements `d`. -/
def vresize {α : Type} (v : List α) (n : Nat) (d : α) : List α :=
  v.take n ++ List.replicate (n - v.length) d

/-- `std::array<double, 6> transform`: field `ak` is `transform[k]`. -/
structure Transform where
  a0 : ℚ
  a1 : ℚ
  a2 : ℚ
  a3 : ℚ
  a4 : ℚ
  a5 : ℚ
deriving DecidableEq

/-- The data members of `class gdal`. -/
structure gdal where
  transform : Transform
  width : Nat
  height : Nat
  utm_zone : Int
  utm_north : Bool
  custom_x_origin : ℚ
  custom_y_origin : ℚ
  bands : rasters
  names : List String
deriving DecidableEq

/-- What a member function can end with instead of a value. -/
inductive Error where
  /-- `throw std::out_of_range(msg)` -/
  | out_of_range (msg : String)
  /-- unchecked `operator[]` past the end of a vector -/
  | undefined_access
deriving DecidableEq

/-- `void clear() { bands.clear(); }` -/
def clear (self : gdal) : gdal :=
  { self with bands := [] }

/-- `void copy_impl(const gdal& x)`: seven member-wise assignments. -/
def copy_impl (self x : gdal) : gdal :=
  { self with
    width := x.width
    height := x.height
    utm_zone := x.utm_zone
    utm_north := x.utm_north
    transform := x.transform
    bands := x.bands
    names := x.names }

/-- `gdal& operator=(const gdal& x) { this->clear(); copy_impl(x); return *this; }`
called with `x` an object other than `*this`. -/
def assign (self x : gdal) : gdal :=
  copy_impl (clear self) x

/-- `gdal& operator=(const gdal& x)` called with `x` the object itself (`g = g`):
there is no self-assignment guard, `this->clear()` empties the bands of the one
object, and `copy_impl` then reads the cleared object. -/
def assign_self (self : gdal) : gdal :=
  copy_impl (clear self) (clear self)

/-- `gdal(const gdal& x) { copy_impl(x); }`: the vectors start empty, the scalar
members and the transform start with the indeterminate values of `indet`. -/
def copy_construct (indet x : gdal) : gdal :=
  copy_impl { indet with bands := [], names := [] } x

/-- `void set_custom_origin(double x, double y)` -/
def set_custom_origin (self : gdal) (x y : ℚ) : gdal :=
  { self with custom_x_origin := x, custom_y_origin := y }

/-- `void set_utm(int zone, bool north = true)` -/
def set_utm (self : gdal) (zone : Int) (north : Bool) : gdal :=
  { self with utm_zone := zone, utm_north := north }

/-- `void set_transform(double pos_x, double pos_y, double width = 1.0, double height = 1.0)` -/
def set_transform (self : gdal) (pos_x pos_y width height : ℚ) : gdal :=
  { self with
    transform :=
      { a0 := pos_x
        a1 := width
        a2 := 0
        a3 := pos_y
        a4 := 0
        a5 := height } }

/-- `void set_size(size_t n, size_t x, size_t y)`: both vectors are resized to
`n`, then every band is resized to `size = x * y` (a `size_t` product). -/
def set_size (self : gdal) (n x y : Nat) : gdal :=
  let bands := vresize self.bands n []
  let names := vresize self.names n ""
  let size := (x * y) % SIZE_MOD
  { self with
    width := x
    height := y
    bands := bands.map (fun band => vresize band size 0)
    names := names }

/-- `void copy_meta(const gdal& copy)` -/
def copy_meta (self copy : gdal) : gdal :=
  set_size
    { self with
      utm_zone := copy.utm_zone
      utm_north := copy.utm_north
      transform := copy.transform
      names := copy.names }
    copy.bands.length copy.width copy.height

/-- `void copy_meta(const gdal& copy, size_t n_raster)` -/
def copy_meta_n (self copy : gdal) (n_raster : Nat) : gdal :=
  set_size
    { self with
      utm_zone := copy.utm_zone
      utm_north := copy.utm_north
      transform := copy.transform }
    n_raster copy.width copy.height

def get_width (self : gdal) : Nat := self.width

def get_height (self : gdal) : Nat := self.height

/-- `std::abs(transform[1])`, the pixel width. -/
def get_scale_x (self : gdal) : ℚ := |self.transform.a1|

/-- `std::abs(transform[5])`, the pixel height. -/
def get_scale_y (self : gdal) : ℚ := |self.transform.a5|

/-- `transform[0]`, the upper left pixel position x. -/
def get_utm_pose_x (self : gdal) : ℚ := self.transform.a0

/-- `transform[3]`, the upper left pixel position y. -/
def get_utm_pose_y (self : gdal) : ℚ := self.transform.a3

def get_custom_x_origin (self : gdal) : ℚ := self.custom_x_origin

def get_custom_y_origin (self : gdal) : ℚ := self.custom_y_origin

/-- The loop of `get_band_id`, entered at index `idx` with `rest` the part of
`names` from `idx` on: the first element equal to `name` ends the loop with
its index, and running off the end reaches the `throw`. -/
def get_band_id_from (name : String) : List String → Nat → Except Error Nat
  | [], _ => .error (.out_of_range ("[gdal] band name not found: " ++ name))
  | n :: rest, idx => if n = name then .ok idx else get_band_id_from name rest (idx + 1)

/-- `size_t get_band_id(const std::string& name) const` -/
def get_band_id (self : gdal) (name : String) : Except Error Nat :=
  get_band_id_from name self.names 0

/-- `raster& get_band(const std::string& name)`: `bands[ get_band_id(name) ]`,
with the unchecked `operator[]`. -/
def get_band (self : gdal) (name : String) : Except Error raster :=
  match get_band_id self name with
  | .error e => .error e
  | .ok idx =>
    match self.bands.get? idx with
    | some band => .ok band
    | none => .error .undefined_access

/-- The assignment `names[i] = name` on the public member `names`
(the caller keeps `i < names.size()`). -/
def set_name (self : gdal) (i : Nat) (name : String) : gdal :=
  { self with names := self.names.set i name }

/-- `inline bool operator==( const gdal& lhs, const gdal& rhs )` -/
def eq (lhs rhs : gdal) : Bool :=
  decide (get_width lhs = get_width rhs)
    && decide (get_height lhs = get_height rhs)
    && decide (get_scale_x lhs = get_scale_x rhs)
    && decide (get_scale_y lhs = get_scale_y rhs)
    && decide (get_utm_pose_x lhs = get_utm_pose_x rhs)
    && decide (get_utm_pose_y lhs = get_utm_pose_y rhs)
    && decide (get_custom_x_origin lhs = get_custom_x_origin rhs)
    && decide (get_custom_y_origin lhs = get_custom_y_origin rhs)
    && decide (lhs.names = rhs.names)
    && decide (lhs.bands = rhs.bands)

/-- `names.size() == bands.size()` -/
def names_match_bands (g : gdal) : Prop :=
  g.names.length = g.bands.length

/-- `band.size() == width * height` for every band, the product being the
`size_t` product. -/
def bands_sized (g : gdal) : Prop :=
  ∀ band ∈ g.bands, band.length = (g.width * g.height) % SIZE_MOD

/-- The cell of band `i` at position `j`, zero where there is none. -/
def cell (bands : rasters) (i j : Nat) : ℚ :=
  (bands.getD i []).getD j 0

instance (g : gdal) : Decidable (names_match_bands g) := by
  unfold names_match_bands
  infer_instance

instance (g : gdal) : Decidable (bands_sized g) := by
  unfold bands_sized
  infer_instance

/-- A 1x1 store with one band named `"a"` whose only cell holds 5. -/
def store_a5 : gdal :=
  { transform := { a0 := 0, a1 := 1, a2 := 0, a3 := 0, a4 := 0, a5 := 1 }
    width := 1
    height := 1
    utm_zone := 0
    utm_north := true
    custom_x_origin := 0
    custom_y_origin := 0
    bands := [[5]]
    names := ["a"] }

/-- A 1x1 store with one band named `"b"` whose only cell holds 9. -/
def store_b9 : gdal :=
  { store_a5 with bands := [[9]], names := ["b"] }

/-- A 1x1 store with two bands, named `"a"` (cell 1) and `"b"` (cell 2). -/
def store_ab : gdal :=
  { store_a5 with bands := [[1], [2]], names := ["a", "b"] }

/-- A 1x1 store with three bands, named `"b"`, `"a"` and again `"a"`. -/
def store_baa : gdal :=
  { store_a5 with bands := [[1], [2], [3]], names := ["b", "a", "a"] }

/-- The message of the exception of `get_band_id`. -/
def not_found (name : String) : Error :=
  .out_of_range ("[gdal] band name not found: " ++ name)

/-- The conversion of a `double` that holds the integer `z` (a result of
`std::ceil`) to `size_t`: the value itself when `size_t` can represent it, and
undefined behaviour (`none`) otherwise. -/
def to_size_t (z : Int) : Option Nat :=
  if 0 ≤ z ∧ z < SIZE_MOD then some z.toNat else none

/-- `size_t index_raster(double x, double y) const` in exact arithmetic:
`std::ceil( x / get_scale_x() + y / get_scale_y() * width )` converted to
`size_t`. With a zero scale a quotient is infinite or NaN and the conversion is
undefined (`none`). `index_raster_double` is the same function with every
operation rounded to `double`. -/
def index_raster (self : gdal) (x y : ℚ) : Option Nat :=
  if get_scale_x self = 0 ∨ get_scale_y self = 0 then none
  else to_size_t ⌈x / get_scale_x self + y / get_scale_y self * (self.width : ℚ)⌉

/-- `size_t index_utm(double x, double y) const` in exact arithmetic:
`std::ceil( (x - get_utm_pose_x()) / get_scale_x() +
(y - get_utm_pose_y()) / get_scale_y() * width )` converted to `size_t`.
`index_utm_double` is the same function with every operation rounded to
`double`. -/
def index_utm (self : gdal) (x y : ℚ) : Option Nat :=
  if get_scale_x self = 0 ∨ get_scale_y self = 0 then none
  else to_size_t ⌈(x - get_utm_pose_x self) / get_scale_x self +
    (y - get_utm_pose_y self) / get_scale_y self * (self.width : ℚ)⌉

/-- `size_t index_custom(double x, double y) const` -/
def index_custom (self : gdal) (x y : ℚ) : Option Nat :=
  index_utm self (x + self.custom_x_origin) (y + self.custom_y_origin)

/-- The value of `*std::min_element(first, last)` on a range that starts with
`a` and goes on with `rest`: the scan keeps the smallest element met so far. -/
def min_value (a : ℚ) (rest : List ℚ) : ℚ :=
  rest.foldl (fun m e => if e < m then e else m) a

/-- The value of `*std::max_element(first, last)` (as `std::minmax_element`
finds it) on a range that starts with `a` and goes on with `rest`. -/
def max_value (a : ℚ) (rest : List ℚ) : ℚ :=
  rest.foldl (fun m e => if e < m then m else e) a

/-- The conversion of a `float` that holds the integer `z` (a result of
`std::floor`) to `unsigned char`: the value itself when it is in `[0, 255]`,
and undefined behaviour (`none`) otherwise. -/
def to_uchar (z : Int) : Option Nat :=
  if 0 ≤ z ∧ z < 256 then some z.toNat else none

/-- The loop of `vfloat2vuchar` over the elements of `v` in order:
`retval[idx] = std::floor( coef * (v[idx] - min) )`. -/
def vfloat2vuchar_loop (coef min : ℚ) : List ℚ → Option (List Nat)
  | [] => some []
  | e :: rest =>
    match to_uchar ⌊coef * (e - min)⌋, vfloat2vuchar_loop coef min rest with
    | some b, some bs => some (b :: bs)
    | _, _ => none

/-- `inline std::vector<uint8_t> vfloat2vuchar(const std::vector<float>& v)` in
exact arithmetic (`vfloat2vuchar_float` rounds as the source does).
On an empty `v`, `std::minmax_element` returns `v.end()` twice and
`*minmax.first` reads past the end: undefined behaviour (`none`). -/
def vfloat2vuchar (v : List ℚ) : Option (List Nat) :=
  match v with
  | [] => none
  | a :: rest =>
    let min := min_value a rest
    let max := max_value a rest
    let diff := max - min
    let retval := List.replicate v.length 0
    if diff = 0 then some retval
    else
      let coef := 255 / diff
      vfloat2vuchar_loop coef min v

/-- `m` is the minimum of `v`: an element of `v` below all the others. -/
def is_min (v : List ℚ) (m : ℚ) : Prop :=
  m ∈ v ∧ ∀ e ∈ v, m ≤ e

/-- `M` is the maximum of `v`: an element of `v` above all the others. -/
def is_max (v : List ℚ) (M : ℚ) : Prop :=
  M ∈ v ∧ ∀ e ∈ v, e ≤ M

instance (v : List ℚ) (m : ℚ) : Decidable (is_min v m) := by
  unfold is_min
  infer_instance

instance (v : List ℚ) (M : ℚ) : Decidable (is_max v M) := by
  unfold is_max
  infer_instance

/-- A 2x2 north-up store with the usual negative n-s pixel resolution
(`transform[5] = -1`), origin `(10, 20)` and one zero band. -/
def store_north_up : gdal :=
  { transform := { a0 := 10, a1 := 1, a2 := 0, a3 := 20, a4 := 0, a5 := -1 }
    width := 2
    height := 2
    utm_zone := 31
    utm_north := true
    custom_x_origin := 0
    custom_y_origin := 0
    bands := [[0, 0, 0, 0]]
    names := ["dtm"] }

/-- Rounding of `s` to the nearest integer, a tie going to the even one. -/
def round_half_even (s : ℚ) : Int :=
  let f := ⌊s⌋
  let r := s - f
  if r < 1 / 2 then f
  else if 1 / 2 < r then f + 1
  else if f % 2 = 0 then f else f + 1

/-- Rounding of `q` to the nearest binary floating-point number with `p`
significant bits (IEEE 754 round-to-nearest-even): with `2^e ≤ |q| < 2^(e+1)`
the result is the multiple of `2^(e-(p-1))` nearest to `q`. The exponent is not
bounded: overflow to infinity and underflow are outside this value model. -/
def fl (p : Nat) (q : ℚ) : ℚ :=
  if q = 0 then 0
  else
    let k : Int := Int.log 2 |q| - (p - 1)
    round_half_even (q / 2 ^ k) * 2 ^ k

/-- Rounding to `double` (binary64, 53 significant bits). -/
def fl64 (q : ℚ) : ℚ := fl 53 q

/-- Rounding to `float` (binary32, 24 significant bits). -/
def fl32 (q : ℚ) : ℚ := fl 24 q

/-- `index_raster` in `double` arithmetic: each `/`, `*` and `+` of
`std::ceil( x / get_scale_x() + y / get_scale_y() * width )` rounds its result
to `double`, and `width` is converted to `double`. -/
def index_raster_double (self : gdal) (x y : ℚ) : Option Nat :=
  if get_scale_x self = 0 ∨ get_scale_y self = 0 then none
  else to_size_t ⌈fl64 (fl64 (x / get_scale_x self) +
    fl64 (fl64 (y / get_scale_y self) * fl64 (self.width : ℚ)))⌉

/-- `index_utm` in `double` arithmetic: each `-`, `/`, `*` and `+` of
`std::ceil( (x - get_utm_pose_x()) / get_scale_x() +
(y - get_utm_pose_y()) / get_scale_y() * width )` rounds its result to
`double`, and `width` is converted to `double`. -/
def index_utm_double (self : gdal) (x y : ℚ) : Option Nat :=
  if get_scale_x self = 0 ∨ get_scale_y self = 0 then none
  else to_size_t ⌈fl64 (fl64 (fl64 (x - get_utm_pose_x self) / get_scale_x self) +
    fl64 (fl64 (fl64 (y - get_utm_pose_y self) / get_scale_y self) *
      fl64 (self.width : ℚ)))⌉

/-- The loop of `vfloat2vuchar` in `float` arithmetic:
`retval[idx] = std::floor( coef * (v[idx] - min) )`, the difference and the
product rounded to `float`. -/
def vfloat2vuchar_float_loop (coef min : ℚ) : List ℚ → Option (List Nat)
  | [] => some []
  | e :: rest =>
    match to_uchar ⌊fl32 (coef * fl32 (e - min))⌋,
      vfloat2vuchar_float_loop coef min rest with
    | some b, some bs => some (b :: bs)
    | _, _ => none

/-- `vfloat2vuchar` in the arithmetic of the source: `float diff = max - min`
is a `float` difference, `float coef = 255.0 / diff` is a `double` quotient
converted to `float`, and the loop works in `float`. -/
def vfloat2vuchar_float (v : List ℚ) : Option (List Nat) :=
  match v with
  | [] => none
  | a :: rest =>
    let min := min_value a rest
    let max := max_value a rest
    let diff := fl32 (max - min)
    let retval := List.replicate v.length 0
    if diff = 0 then some retval
    else
      let coef := fl32 (fl64 (255 / diff))
      vfloat2vuchar_float_loop coef min v

/-- The `double` nearest to `0.1`. -/
def double_tenth : ℚ := 3602879701896397 / 36028797018963968

/-- A 10x10 store with pixel scale `0.1` in both directions and origin
`(0, 0)`. -/
def store_tenth : gdal :=
  { transform := { a0 := 0, a1 := double_tenth, a2 := 0, a3 := 0, a4 := 0, a5 := double_tenth }
    width := 10
    height := 10
    utm_zone := 31
    utm_north := true
    custom_x_origin := 0
    custom_y_origin := 0
    bands := []
    names := [] }

/-! ## `std::vector::resize` -/

theorem length_vresize {α : Type} (v : List α) (n : Nat) (d : α) :
    (vresize v n d).length = n := by
  simp only [vresize, List.length_append, List.length_take, List.length_replicate]
  omega

theorem mem_vresize {α : Type} {v : List α} {n : Nat} {d a : α}
    (h : a ∈ vresize v n d) : a ∈ v ∨ a = d := by
  simp only [vresize, List.mem_append, List.mem_replicate] at h
  rcases h with h | h
  · exact Or.inl (List.mem_of_mem_take h)
  · exact Or.inr h.2

theorem getD_vresize {α : Type} (v : List α) (n : Nat) (d : α) (i : Nat) (hi : i < n) :
    (vresize v n d).getD i d = v.getD i d := by
  simp only [vresize, List.getD_eq_getElem?_getD]
  by_cases h : i < v.length
  · rw [List.getElem?_append_left (by simp; omega)]
    rw [List.getElem?_take_of_lt hi]
  · have hlen : (List.take n v).length ≤ i := by simp; omega
    rw [List.getElem?_append_right hlen]
    have h1 : v[i]? = none := List.getElem?_eq_none (by omega)
    have h2 : i - (List.take n v).length < (List.replicate (n - v.length) d).length := by
      simp only [List.length_take, List.length_replicate]
      omega
    rw [List.getElem?_eq_getElem h2, h1]
    simp

theorem vresize_of_length_eq {α : Type} (v : List α) (n : Nat) (d : α) (h : v.length = n) :
    vresize v n d = v := by
  subst h
  simp [vresize]

/-! ## `set_size` -/

theorem set_size_bands_length (self : gdal) (n x y : Nat) :
    (set_size self n x y).bands.length = n := by
  simp [set_size, length_vresize]

theorem set_size_names (self : gdal) (n x y : Nat) :
    (set_size self n x y).names = vresize self.names n "" := rfl

theorem set_size_names_length (self : gdal) (n x y : Nat) :
    (set_size self n x y).names.length = n := by
  simp [set_size, length_vresize]

theorem set_size_band_length (self : gdal) (n x y : Nat) :
    ∀ band ∈ (set_size self n x y).bands, band.length = (x * y) % SIZE_MOD := by
  intro band hband
  simp only [set_size, List.mem_map] at hband
  obtain ⟨b, _, rfl⟩ := hband
  exact length_vresize _ _ _

theorem set_size_cell (self : gdal) (n x y i j : Nat)
    (hi : i < n) (hj : j < (x * y) % SIZE_MOD) :
    cell (set_size self n x y).bands i j = cell self.bands i j := by
  have hlen : i < (vresize self.bands n []).length := by rw [length_vresize]; exact hi
  have hget : (vresize self.bands n ([] : raster))[i]? = some (self.bands.getD i []) := by
    rw [← getD_vresize self.bands n [] i hi, List.getD_eq_getElem?_getD,
      List.getElem?_eq_getElem hlen]
    simp
  simp only [cell, set_size, List.getD_eq_getElem?_getD, List.getElem?_map, hget,
    Option.map_some', Option.getD_some]
  have := getD_vresize (self.bands.getD i []) ((x * y) % SIZE_MOD) 0 j hj
  simpa only [List.getD_eq_getElem?_getD] using this

theorem set_size_zero (self : gdal) (n x y : Nat)
    (h : ∀ band ∈ self.bands, ∀ c ∈ band, c = 0) :
    ∀ band ∈ (set_size self n x y).bands, ∀ c ∈ band, c = 0 := by
  intro band hband c hc
  simp only [set_size, List.mem_map] at hband
  obtain ⟨b, hb, rfl⟩ := hband
  rcases mem_vresize hc with hc | hc
  · rcases mem_vresize hb with hb | hb
    · exact h b hb c hc
    · subst hb
      simp at hc
  · exact hc

/-! ## `get_band_id` -/

theorem get_band_id_from_error (name : String) (l : List String) (idx : Nat) (e : Error) :
    get_band_id_from name l idx = .error e ↔ name ∉ l ∧ e = not_found name := by
  induction l generalizing idx with
  | nil =>
    simp only [get_band_id_from, not_found, Except.error.injEq, List.not_mem_nil,
      not_false_eq_true, true_and]
    exact eq_comm
  | cons n rest ih =>
    by_cases hn : n = name
    · simp [get_band_id_from, hn]
    · have hn2 : ¬ name = n := fun h => hn h.symm
      simp [get_band_id_from, hn, hn2, ih]

theorem get_band_id_from_ok (name : String) (l : List String) (idx k : Nat) :
    get_band_id_from name l idx = .ok k ↔
      ∃ i, k = idx + i ∧ l.get? i = some name ∧ ∀ j, j < i → l.get? j ≠ some name := by
  induction l generalizing idx with
  | nil => simp [get_band_id_from]
  | cons n rest ih =>
    by_cases hn : n = name
    · simp only [get_band_id_from, hn, if_true, Except.ok.injEq]
      constructor
      · intro h
        exact ⟨0, by omega, by simp, by intro j hj; omega⟩
      · rintro ⟨i, hk, _, hfirst⟩
        rcases Nat.eq_zero_or_pos i with h0 | hpos
        · omega
        · exact absurd (by simp) (hfirst 0 hpos)
    · simp only [get_band_id_from, hn, if_false, ih]
      constructor
      · rintro ⟨i, hk, hget, hfirst⟩
        refine ⟨i + 1, by omega, by simpa using hget, ?_⟩
        intro j hj
        cases j with
        | zero => simpa using hn
        | succ j => simpa using hfirst j (by omega)
      · rintro ⟨i, hk, hget, hfirst⟩
        cases i with
        | zero => simp at hget; exact absurd hget hn
        | succ i =>
          refine ⟨i, by omega, by simpa using hget, ?_⟩
          intro j hj
          simpa using hfirst (j + 1) (by omega)

theorem get_band_id_from_total (name : String) (l : List String) (idx : Nat)
    (h : name ∈ l) : ∃ k, get_band_id_from name l idx = .ok k := by
  cases hres : get_band_id_from name l idx with
  | ok k => exact ⟨k, rfl⟩
  | error e => exact absurd h ((get_band_id_from_error name l idx e).1 hres).1

/-! ## Assignment of a store to itself -/

theorem assign_self_bands (self : gdal) :
    (assign_self self).bands = [] ∧ (assign_self self).names = self.names :=
  ⟨rfl, rfl⟩

/-! ## The store's operations -/

/-- C1, as stated, fails: `set_size(1, 1, 1)` on a 1x1 store whose band holds 5
leaves the 5 in place, so not every cell is zero afterwards. -/
theorem set_size_retains_cell :
    ¬ ((set_size store_a5 1 1 1).bands.length = 1 ∧
        (set_size store_a5 1 1 1).names.length = 1 ∧
        ∀ band ∈ (set_size store_a5 1 1 1).bands,
          band.length = 1 * 1 ∧ ∀ c ∈ band, c = 0) := by
  decide

/-- C1, amended: after `set_size(n, x, y)` there are `n` bands and `n` names,
every band has length `x * y` (the `size_t` product), every cell `(i, j)` holds
what band `i` held at position `j` before the call (zero where there was no such
cell), and so all cells are zero when no cell of the store was non-zero before. -/
theorem set_size_post (self : gdal) (n x y : Nat) :
    (set_size self n x y).bands.length = n ∧
    (set_size self n x y).names.length = n ∧
    (∀ band ∈ (set_size self n x y).bands, band.length = (x * y) % SIZE_MOD) ∧
    (∀ i j, i < n → j < (x * y) % SIZE_MOD →
      cell (set_size self n x y).bands i j = cell self.bands i j) ∧
    ((∀ band ∈ self.bands, ∀ c ∈ band, c = 0) →
      ∀ band ∈ (set_size self n x y).bands, ∀ c ∈ band, c = 0) :=
  ⟨set_size_bands_length self n x y, set_size_names_length self n x y,
    set_size_band_length self n x y, fun i j hi hj => set_size_cell self n x y i j hi hj,
    set_size_zero self n x y⟩

/-- Witness of C1 amended: growing the one-band 1x1 store to two 2x2 bands keeps
the 5 at cell `(0, 0)` and fills cell `(1, 3)` with zero. -/
theorem set_size_post_witness :
    (0 < 2 ∧ 0 < (2 * 2) % SIZE_MOD ∧ 1 < 2 ∧ 3 < (2 * 2) % SIZE_MOD) ∧
    cell (set_size store_a5 2 2 2).bands 0 0 = 5 ∧
    cell (set_size store_a5 2 2 2).bands 1 3 = 0 ∧
    ∀ band ∈ (set_size (clear store_a5) 2 2 2).bands, ∀ c ∈ band, c = 0 :=
  ⟨by decide,
    (set_size_post store_a5 2 2 2).2.2.2.1 0 0 (by decide) (by decide),
    (set_size_post store_a5 2 2 2).2.2.2.1 1 3 (by decide) (by decide),
    (set_size_post (clear store_a5) 2 2 2).2.2.2.2 (by decide)⟩

/-- C2, as stated, fails: `clear()` empties `bands` and keeps `names`, so a
store with one band and one name has one name and no band afterwards. -/
theorem clear_breaks_names_match_bands :
    names_match_bands store_a5 ∧ ¬ names_match_bands (clear store_a5) := by
  decide

/-- C2, amended: `names.size() == bands.size()` holds after `set_size`,
`set_transform`, `set_utm`, `set_custom_origin`, both `copy_meta` overloads and
assignment from another store that satisfies it; after `clear()` it holds
exactly when `names` is empty. -/
theorem names_match_bands_preserved (self src : gdal) (n x y n_raster : Nat)
    (pos_x pos_y w h cx cy : ℚ) (zone : Int) (north : Bool)
    (hself : names_match_bands self) (hsrc : names_match_bands src) :
    names_match_bands (set_size self n x y) ∧
    names_match_bands (set_transform self pos_x pos_y w h) ∧
    names_match_bands (set_utm self zone north) ∧
    names_match_bands (set_custom_origin self cx cy) ∧
    names_match_bands (copy_meta self src) ∧
    names_match_bands (copy_meta_n self src n_raster) ∧
    names_match_bands (assign self src) ∧
    (names_match_bands (clear self) ↔ self.names = []) := by
  refine ⟨?_, hself, hself, hself, ?_, ?_, hsrc, ?_⟩
  · simp only [names_match_bands, set_size_bands_length, set_size_names_length]
  · simp only [names_match_bands, copy_meta, set_size_bands_length, set_size_names_length]
  · simp only [names_match_bands, copy_meta_n, set_size_bands_length, set_size_names_length]
  · simp [names_match_bands, clear]

/-- Witness of C2 amended, at the one-band store `store_a5` with the two-band
store `store_ab` as the source. -/
theorem names_match_bands_preserved_witness :
    names_match_bands store_a5 ∧
    names_match_bands (set_size store_a5 3 2 2) ∧
    names_match_bands store_ab ∧
    names_match_bands (copy_meta store_a5 store_ab) ∧
    names_match_bands (assign store_a5 store_ab) :=
  have hp := names_match_bands_preserved store_a5 store_ab 3 2 2 4 0 0 1 1 0 0 0 true
    (by decide) (by decide)
  ⟨by decide, hp.1, by decide, hp.2.2.2.2.1, hp.2.2.2.2.2.2.1⟩

/-- C3: "every band has length `width * height`" (the `size_t` product) is kept
by `set_size`, both `copy_meta` overloads, `clear`, assignment (from another
store and of a store to itself), `set_transform`, `set_utm` and
`set_custom_origin`, when it holds of the store and of the source. -/
theorem bands_sized_preserved (self src : gdal) (n x y n_raster : Nat)
    (pos_x pos_y w h cx cy : ℚ) (zone : Int) (north : Bool)
    (hself : bands_sized self) (hsrc : bands_sized src) :
    bands_sized (set_size self n x y) ∧
    bands_sized (copy_meta self src) ∧
    bands_sized (copy_meta_n self src n_raster) ∧
    bands_sized (clear self) ∧
    bands_sized (assign self src) ∧
    bands_sized (set_transform self pos_x pos_y w h) ∧
    bands_sized (set_utm self zone north) ∧
    bands_sized (set_custom_origin self cx cy) ∧
    bands_sized (assign_self self) := by
  refine ⟨?_, ?_, ?_, ?_, hsrc, hself, hself, hself, ?_⟩
  · exact set_size_band_length self n x y
  · exact set_size_band_length _ _ _ _
  · exact set_size_band_length _ _ _ _
  · intro band hband
    simp [clear] at hband
  · intro band hband
    rw [(assign_self_bands self).1] at hband
    simp at hband

/-- Witness of C3, at the one-band 1x1 store `store_a5` with the two-band 1x1
store `store_ab` as the source. -/
theorem bands_sized_preserved_witness :
    bands_sized store_a5 ∧
    bands_sized (set_size store_a5 3 2 2) ∧
    bands_sized store_ab ∧
    bands_sized (copy_meta store_a5 store_ab) ∧
    bands_sized (assign store_a5 store_ab) ∧
    bands_sized (assign_self store_a5) :=
  have hp := bands_sized_preserved store_a5 store_ab 3 2 2 4 0 0 1 1 0 0 0 true
    (by decide) (by decide)
  ⟨by decide, hp.1, by decide, hp.2.1, hp.2.2.2.2.1, hp.2.2.2.2.2.2.2.2⟩

/-- C4: `get_band_id(name)` fails exactly when `name` does not occur in `names`,
its only failure is the not-found exception, and its result is `i` exactly when
`i` is the smallest index with `names[i] == name`; a name that occurs is found. -/
theorem get_band_id_spec (self : gdal) (name : String) :
    (get_band_id self name = .error (not_found name) ↔ name ∉ self.names) ∧
    (∀ e, get_band_id self name = .error e → e = not_found name) ∧
    (∀ i, get_band_id self name = .ok i ↔
      (self.names.get? i = some name ∧ ∀ j, j < i → self.names.get? j ≠ some name)) ∧
    (name ∈ self.names → ∃ i, get_band_id self name = .ok i) := by
  refine ⟨?_, ?_, ?_, ?_⟩
  · rw [get_band_id, get_band_id_from_error]
    simp
  · intro e he
    exact ((get_band_id_from_error name self.names 0 e).1 he).2
  · intro i
    rw [get_band_id, get_band_id_from_ok]
    constructor
    · rintro ⟨k, hk, hget, hfirst⟩
      have : i = k := by omega
      subst this
      exact ⟨hget, hfirst⟩
    · rintro ⟨hget, hfirst⟩
      exact ⟨i, by omega, hget, hfirst⟩
  · exact get_band_id_from_total name self.names 0

/-- Witness of C4: with names `["b", "a", "a"]` the id of `"a"` is 1, the first
of its two occurrences. -/
theorem get_band_id_spec_witness :
    (store_baa.names.get? 1 = some "a" ∧ store_baa.names.get? 2 = some "a") ∧
    get_band_id store_baa "a" = .ok 1 :=
  ⟨by decide, ((get_band_id_spec store_baa "a").2.2.1 1).2 (by decide)⟩

/-- C5, as stated, fails: with names `["a", "b"]`, after `names[1] = "a"` the
band of `"a"` is still band 0 (cell 1), not band 1 (cell 2). -/
theorem get_band_first_match_wins :
    1 < store_ab.names.length ∧ store_ab.bands.get? 1 = some [2] ∧
    get_band (set_name store_ab 1 "a") "a" ≠ .ok [2] := by
  refine ⟨by decide, by decide, ?_⟩
  have h : get_band (set_name store_ab 1 "a") "a" = .ok [1] := rfl
  rw [h]
  intro hne
  injection hne with hcell
  exact absurd hcell (by decide)

/-- C5, amended: when `name` does not occur in `names` before index `i`, and
band `i` exists, `get_band(name)` after `names[i] = name` is `bands[i]`; and
`get_band` of a name absent from `names` fails with the not-found exception. -/
theorem get_band_after_set_name (self : gdal) (i : Nat) (name missing : String)
    (band : raster) :
    (i < self.names.length → self.bands.get? i = some band →
      (∀ j, j < i → self.names.get? j ≠ some name) →
      get_band (set_name self i name) name = .ok band) ∧
    (missing ∉ self.names → get_band self missing = .error (not_found missing)) := by
  constructor
  · intro hi hband hfirst
    have hid : get_band_id (set_name self i name) name = .ok i := by
      rw [get_band_id, get_band_id_from_ok]
      refine ⟨i, by omega, ?_, ?_⟩
      · simp [set_name, hi]
      · intro j hj
        have hne : i ≠ j := by omega
        simpa [set_name, List.getElem?_set_ne hne] using hfirst j hj
    have hb : (set_name self i name).bands = self.bands := rfl
    simp only [get_band, hid, hb, hband]
  · intro hmissing
    have hid : get_band_id self missing = .error (not_found missing) := by
      rw [get_band_id, get_band_id_from_error]
      exact ⟨hmissing, rfl⟩
    simp only [get_band, hid]

/-- Witness of C5 amended: renaming band 1 of `["a", "b"]` to `"c"` makes
`get_band("c")` band 1, and `get_band("missing")` fails. -/
theorem get_band_after_set_name_witness :
    (1 < store_ab.names.length ∧ store_ab.bands.get? 1 = some [2] ∧
      "missing" ∉ store_ab.names) ∧
    get_band (set_name store_ab 1 "c") "c" = .ok [2] ∧
    get_band store_ab "missing" = .error (not_found "missing") :=
  ⟨by decide,
    (get_band_after_set_name store_ab 1 "c" "missing" [2]).1 (by decide) (by decide)
      (by decide),
    (get_band_after_set_name store_ab 1 "c" "missing" [2]).2 (by decide)⟩

/-- C6: `a == b` holds exactly when width, height, `|sx|`, `|sy|`, the transform
origin, the custom origin, the names and the bands are equal; so changing only
`utm_zone`, `utm_north` and the rotation terms of a store gives an equal store. -/
theorem eq_spec (a b : gdal) (zone : Int) (north : Bool) (rx ry : ℚ) :
    (eq a b = true ↔
      a.width = b.width ∧ a.height = b.height ∧
      |a.transform.a1| = |b.transform.a1| ∧ |a.transform.a5| = |b.transform.a5| ∧
      a.transform.a0 = b.transform.a0 ∧ a.transform.a3 = b.transform.a3 ∧
      a.custom_x_origin = b.custom_x_origin ∧ a.custom_y_origin = b.custom_y_origin ∧
      a.names = b.names ∧ a.bands = b.bands) ∧
    eq a { a with
      utm_zone := zone
      utm_north := north
      transform := { a.transform with a2 := rx, a4 := ry } } = true := by
  constructor
  · simp only [eq, get_width, get_height, get_scale_x, get_scale_y, get_utm_pose_x,
      get_utm_pose_y, get_custom_x_origin, get_custom_y_origin, Bool.and_eq_true,
      decide_eq_true_eq, and_assoc]
  · simp [eq, get_width, get_height, get_scale_x, get_scale_y, get_utm_pose_x,
      get_utm_pose_y, get_custom_x_origin, get_custom_y_origin]

/-- C7 at its failing input: assigning `store_a5` (custom origin `(0, 0)`) to a
store whose custom origin is `(1, 2)` leaves the custom origin at `(1, 2)`, and
the assigned store does not compare equal to its source; the copy constructor
likewise leaves the custom origin at the indeterminate value it started with;
the members that `copy_impl` does assign are the source's. -/
theorem assign_keeps_custom_origin :
    (assign (set_custom_origin store_b9 1 2) store_a5).custom_x_origin = 1 ∧
    (assign (set_custom_origin store_b9 1 2) store_a5).custom_y_origin = 2 ∧
    store_a5.custom_x_origin = 0 ∧ store_a5.custom_y_origin = 0 ∧
    eq (assign (set_custom_origin store_b9 1 2) store_a5) store_a5 = false ∧
    (copy_construct (set_custom_origin store_b9 1 2) store_a5).custom_x_origin = 1 ∧
    eq (copy_construct (set_custom_origin store_b9 1 2) store_a5) store_a5 = false ∧
    (assign (set_custom_origin store_b9 1 2) store_a5).bands = store_a5.bands ∧
    (assign (set_custom_origin store_b9 1 2) store_a5).names = store_a5.names := by
  decide

/-- C8, as stated, fails: `copy_meta` from a 1x1 one-band store into the 1x1
store whose band holds 5 leaves the 5 in place. -/
theorem copy_meta_retains_cell :
    ¬ (∀ band ∈ (copy_meta store_a5 store_b9).bands,
        band.length = store_b9.width * store_b9.height ∧ ∀ c ∈ band, c = 0) := by
  decide

/-- C8, amended: after `self.copy_meta(src)`, `self` has `src`'s width, height
and band count, every band has length `src.width * src.height` (the `size_t`
product), and every cell `(i, j)` holds what `self`'s band `i` held at position
`j` before the call, zero where there was no such cell (never a value of `src`);
so all cells are zero when no cell of `self` was non-zero before. -/
theorem copy_meta_bands (self src : gdal) :
    (copy_meta self src).width = src.width ∧
    (copy_meta self src).height = src.height ∧
    (copy_meta self src).bands.length = src.bands.length ∧
    (∀ band ∈ (copy_meta self src).bands,
      band.length = (src.width * src.height) % SIZE_MOD) ∧
    (∀ i j, i < src.bands.length → j < (src.width * src.height) % SIZE_MOD →
      cell (copy_meta self src).bands i j = cell self.bands i j) ∧
    ((∀ band ∈ self.bands, ∀ c ∈ band, c = 0) →
      ∀ band ∈ (copy_meta self src).bands, ∀ c ∈ band, c = 0) :=
  ⟨rfl, rfl, set_size_bands_length _ _ _ _, set_size_band_length _ _ _ _,
    fun i j hi hj => set_size_cell _ _ _ _ i j hi hj,
    fun h => set_size_zero _ _ _ _ h⟩

/-- Witness of C8 amended: `copy_meta` from the store holding 9 into the store
holding 5 keeps the 5, and into the cleared store gives a zero cell. -/
theorem copy_meta_bands_witness :
    (0 < store_b9.bands.length ∧ 0 < (store_b9.width * store_b9.height) % SIZE_MOD) ∧
    cell (copy_meta store_a5 store_b9).bands 0 0 = 5 ∧
    ∀ band ∈ (copy_meta (clear store_a5) store_b9).bands, ∀ c ∈ band, c = 0 :=
  ⟨by decide,
    (copy_meta_bands store_a5 store_b9).2.2.2.2.1 0 0 (by decide) (by decide),
    (copy_meta_bands (clear store_a5) store_b9).2.2.2.2.2 (by decide)⟩

/-- C9, as stated, fails: a cleared source has a name and no band, and
`copy_meta` from it leaves no name. -/
theorem copy_meta_cuts_names :
    (copy_meta store_b9 (clear store_a5)).names ≠ (clear store_a5).names := by
  decide

/-- C9, amended: after `self.copy_meta(src)`, `utm_zone`, `utm_north` and
`transform` are `src`'s, the band count and the dimensions are `src`'s, and
`names` is `src.names` resized to `src`'s band count; it is the whole of
`src.names` when `src` has as many names as bands. -/
theorem copy_meta_meta (self src : gdal) :
    (copy_meta self src).utm_zone = src.utm_zone ∧
    (copy_meta self src).utm_north = src.utm_north ∧
    (copy_meta self src).transform = src.transform ∧
    (copy_meta self src).bands.length = src.bands.length ∧
    (copy_meta self src).width = src.width ∧
    (copy_meta self src).height = src.height ∧
    (copy_meta self src).names = vresize src.names src.bands.length "" ∧
    (names_match_bands src → (copy_meta self src).names = src.names) :=
  ⟨rfl, rfl, rfl, set_size_bands_length _ _ _ _, rfl, rfl, rfl,
    fun h => vresize_of_length_eq src.names src.bands.length "" h⟩

/-- Witness of C9 amended: `copy_meta` from the store named `["a", "b"]`. -/
theorem copy_meta_meta_witness :
    names_match_bands store_ab ∧ (copy_meta store_a5 store_ab).names = ["a", "b"] :=
  ⟨by decide, (copy_meta_meta store_a5 store_ab).2.2.2.2.2.2.2 (by decide)⟩

/-- C10, as stated, fails: `copy_meta(src, 1)` on a store named `["a"]` leaves
the name `"a"` in place, not an empty string. -/
theorem copy_meta_n_retains_name :
    (copy_meta_n store_a5 store_b9 1).names ≠ List.replicate 1 "" := by
  decide

/-- C10, amended: after `self.copy_meta(src, n_raster)`, `utm_zone`,
`utm_north` and `transform` are `src`'s, there are `n_raster` bands, each of
length `src.width * src.height` (the `size_t` product), width and height are
`src`'s, and `names` is `self`'s earlier `names` resized to `n_raster` (earlier
names survive up to `n_raster`, added entries are empty strings, `src`'s names
play no part); it is `n_raster` empty strings when `self` had no name. -/
theorem copy_meta_n_post (self src : gdal) (n_raster : Nat) :
    (copy_meta_n self src n_raster).utm_zone = src.utm_zone ∧
    (copy_meta_n self src n_raster).utm_north = src.utm_north ∧
    (copy_meta_n self src n_raster).transform = src.transform ∧
    (copy_meta_n self src n_raster).bands.length = n_raster ∧
    (∀ band ∈ (copy_meta_n self src n_raster).bands,
      band.length = (src.width * src.height) % SIZE_MOD) ∧
    (copy_meta_n self src n_raster).width = src.width ∧
    (copy_meta_n self src n_raster).height = src.height ∧
    (copy_meta_n self src n_raster).names = vresize self.names n_raster "" ∧
    (self.names = [] → (copy_meta_n self src n_raster).names = List.replicate n_raster "") := by
  refine ⟨rfl, rfl, rfl, set_size_bands_length _ _ _ _, set_size_band_length _ _ _ _,
    rfl, rfl, rfl, ?_⟩
  intro h
  simp [copy_meta_n, set_size, vresize, h]

/-- Witness of C10 amended: on a store without names, `copy_meta(src, 2)` gives
two empty names. -/
theorem copy_meta_n_post_witness :
    ({ store_a5 with names := [] } : gdal).names = [] ∧
    (copy_meta_n { store_a5 with names := [] } store_ab 2).names = ["", ""] :=
  ⟨rfl, (copy_meta_n_post { store_a5 with names := [] } store_ab 2).2.2.2.2.2.2.2.2 rfl⟩

/-! ## The index formulas -/

theorem to_size_t_eq_some_iff (z : Int) (n : Nat) :
    to_size_t z = some n ↔ (n : Int) = z ∧ n < SIZE_MOD := by
  unfold to_size_t
  split
  · simp only [Option.some.injEq]
    omega
  · constructor
    · intro h
      cases h
    · rintro ⟨h1, h2⟩
      omega

theorem to_size_t_natCast (n : Nat) (h : n < SIZE_MOD) : to_size_t (n : Int) = some n :=
  (to_size_t_eq_some_iff _ _).2 ⟨rfl, h⟩

theorem index_raster_of_scale (self : gdal) (x y : ℚ)
    (hx : get_scale_x self ≠ 0) (hy : get_scale_y self ≠ 0) :
    index_raster self x y =
      to_size_t ⌈x / get_scale_x self + y / get_scale_y self * (self.width : ℚ)⌉ := by
  simp [index_raster, hx, hy]

theorem index_utm_of_scale (self : gdal) (x y : ℚ)
    (hx : get_scale_x self ≠ 0) (hy : get_scale_y self ≠ 0) :
    index_utm self x y =
      to_size_t ⌈(x - get_utm_pose_x self) / get_scale_x self +
        (y - get_utm_pose_y self) / get_scale_y self * (self.width : ℚ)⌉ := by
  simp [index_utm, hx, hy]

theorem index_utm_eq_index_raster (self : gdal) (x y : ℚ) :
    index_utm self x y =
      index_raster self (x - get_utm_pose_x self) (y - get_utm_pose_y self) := rfl

theorem store_north_up_scale :
    get_scale_x store_north_up = 1 ∧ get_scale_y store_north_up = 1 := by
  simp [get_scale_x, get_scale_y, store_north_up]

/-- C11, as stated, fails: with the n-s pixel resolution `transform[5] = -1` and
width 2, `index_raster(0, 1)` is 2, while `ceil(x/sx + (y/sy)*width)` with the
entries of the transform is -2. -/
theorem index_raster_uses_abs_scale :
    store_north_up.transform.a1 ≠ 0 ∧ store_north_up.transform.a5 ≠ 0 ∧
    index_raster store_north_up 0 1 = some 2 ∧
    ⌈(0 : ℚ) / store_north_up.transform.a1 +
      1 / store_north_up.transform.a5 * (store_north_up.width : ℚ)⌉ = -2 := by
  refine ⟨by decide, by decide, ?_, ?_⟩
  · rw [index_raster_of_scale _ _ _ (by simp [store_north_up_scale])
      (by simp [store_north_up_scale]), to_size_t_eq_some_iff]
    refine ⟨?_, by decide⟩
    rw [store_north_up_scale.1, store_north_up_scale.2]
    simp only [store_north_up]
    norm_num
  · simp only [store_north_up]
    rw [Int.ceil_eq_iff]
    norm_num

/-- C11, amended: with non-zero pixel-scale entries `sx`, `sy`,
`index_raster(x, y)` is `ceil(x/|sx| + (y/|sy|)*width)` converted to `size_t`:
it returns `n` exactly when `n` is that integer and `n < 2^64`; with positive
entries that is `ceil(x/sx + (y/sy)*width)`. -/
theorem index_raster_formula (self : gdal) (x y : ℚ)
    (hsx : self.transform.a1 ≠ 0) (hsy : self.transform.a5 ≠ 0) :
    index_raster self x y =
      to_size_t ⌈x / |self.transform.a1| + y / |self.transform.a5| * (self.width : ℚ)⌉ ∧
    (∀ n : Nat, index_raster self x y = some n ↔
      ((n : Int) = ⌈x / |self.transform.a1| + y / |self.transform.a5| * (self.width : ℚ)⌉ ∧
        n < SIZE_MOD)) ∧
    (0 < self.transform.a1 → 0 < self.transform.a5 → ∀ n : Nat,
      index_raster self x y = some n ↔
        ((n : Int) = ⌈x / self.transform.a1 + y / self.transform.a5 * (self.width : ℚ)⌉ ∧
          n < SIZE_MOD)) := by
  have hx : get_scale_x self ≠ 0 := by simpa [get_scale_x] using hsx
  have hy : get_scale_y self ≠ 0 := by simpa [get_scale_y] using hsy
  have h := index_raster_of_scale self x y hx hy
  simp only [get_scale_x, get_scale_y] at h
  refine ⟨h, fun n => ?_, fun hpx hpy n => ?_⟩
  · rw [h, to_size_t_eq_some_iff]
  · rw [h, to_size_t_eq_some_iff, abs_of_pos hpx, abs_of_pos hpy]

/-- Witness of C11 amended, at the north-up store: `index_raster(0, 1)` is 2. -/
theorem index_raster_formula_witness :
    (store_north_up.transform.a1 ≠ 0 ∧ store_north_up.transform.a5 ≠ 0) ∧
    index_raster store_north_up 0 1 = some 2 :=
  ⟨by decide,
    ((index_raster_formula store_north_up 0 1 (by decide) (by decide)).2.1 2).2
      ⟨by simp only [store_north_up]; norm_num, by decide⟩⟩

theorem index_raster_aligned (self : gdal) (c r : Nat)
    (hx : get_scale_x self ≠ 0) (hy : get_scale_y self ≠ 0)
    (hb : r * self.width + c < SIZE_MOD) :
    index_raster self (c * get_scale_x self) (r * get_scale_y self) =
      some (r * self.width + c) := by
  have hval : (c : ℚ) * get_scale_x self / get_scale_x self +
      (r : ℚ) * get_scale_y self / get_scale_y self * (self.width : ℚ) =
      ((r * self.width + c : Nat) : ℚ) := by
    field_simp
    ring
  rw [index_raster_of_scale self _ _ hx hy, hval, Int.ceil_natCast]
  exact to_size_t_natCast _ hb

/-- C19: the 2x2 store with scale `(1, 1)` and the point `(3/2, 3/2)`, inside
its extent, have `index_raster(x, y) = 5`, past the end of a band of
`width * height = 4` cells. -/
theorem index_raster_leaves_band :
    ∃ (g : gdal) (x y : ℚ) (idx : Nat),
      1 ≤ g.width ∧ 1 ≤ g.height ∧ 0 < get_scale_x g ∧ 0 < get_scale_y g ∧
      bands_sized g ∧
      0 ≤ x ∧ x < (g.width : ℚ) * get_scale_x g ∧
      0 ≤ y ∧ y < (g.height : ℚ) * get_scale_y g ∧
      index_raster g x y = some idx ∧ g.width * g.height ≤ idx := by
  have hx : get_scale_x store_north_up ≠ 0 := by simp [store_north_up_scale]
  have hy : get_scale_y store_north_up ≠ 0 := by simp [store_north_up_scale]
  refine ⟨store_north_up, 3 / 2, 3 / 2, 5, by decide, by decide, ?_, ?_, by decide,
    by norm_num, ?_, by norm_num, ?_, ?_, by decide⟩
  · simp [store_north_up_scale]
  · simp [store_north_up_scale]
  · rw [store_north_up_scale.1]
    simp only [store_north_up]
    norm_num
  · rw [store_north_up_scale.2]
    simp only [store_north_up]
    norm_num
  · rw [index_raster_of_scale _ _ _ hx hy, to_size_t_eq_some_iff]
    refine ⟨?_, by decide⟩
    rw [store_north_up_scale.1, store_north_up_scale.2]
    simp only [store_north_up]
    rw [eq_comm, Int.ceil_eq_iff]
    norm_num

/-! ## `vfloat2vuchar` -/

theorem min_value_cons (a b : ℚ) (rest : List ℚ) :
    min_value a (b :: rest) = min_value (if b < a then b else a) rest := rfl

theorem max_value_cons (a b : ℚ) (rest : List ℚ) :
    max_value a (b :: rest) = max_value (if b < a then a else b) rest := rfl

theorem min_value_is_min (a : ℚ) (rest : List ℚ) : is_min (a :: rest) (min_value a rest) := by
  induction rest generalizing a with
  | nil => simp [is_min, min_value]
  | cons b rest ih =>
    rw [min_value_cons]
    by_cases hba : b < a
    · rw [if_pos hba]
      obtain ⟨hmem, hle⟩ := ih b
      refine ⟨List.mem_cons_of_mem _ hmem, ?_⟩
      intro e he
      rcases List.mem_cons.1 he with h | h
      · rw [h]
        exact le_trans (hle b (List.mem_cons_self _ _)) (le_of_lt hba)
      · exact hle e h
    · rw [if_neg hba]
      obtain ⟨hmem, hle⟩ := ih a
      constructor
      · rcases List.mem_cons.1 hmem with h | h
        · rw [h]
          exact List.mem_cons_self _ _
        · exact List.mem_cons_of_mem _ (List.mem_cons_of_mem _ h)
      · intro e he
        rcases List.mem_cons.1 he with h | h
        · rw [h]
          exact hle a (List.mem_cons_self _ _)
        · rcases List.mem_cons.1 h with h | h
          · rw [h]
            exact le_trans (hle a (List.mem_cons_self _ _)) (not_lt.1 hba)
          · exact hle e (List.mem_cons_of_mem _ h)

theorem max_value_is_max (a : ℚ) (rest : List ℚ) : is_max (a :: rest) (max_value a rest) := by
  induction rest generalizing a with
  | nil => simp [is_max, max_value]
  | cons b rest ih =>
    rw [max_value_cons]
    by_cases hba : b < a
    · rw [if_pos hba]
      obtain ⟨hmem, hle⟩ := ih a
      constructor
      · rcases List.mem_cons.1 hmem with h | h
        · rw [h]
          exact List.mem_cons_self _ _
        · exact List.mem_cons_of_mem _ (List.mem_cons_of_mem _ h)
      · intro e he
        rcases List.mem_cons.1 he with h | h
        · rw [h]
          exact hle a (List.mem_cons_self _ _)
        · rcases List.mem_cons.1 h with h | h
          · rw [h]
            exact le_trans (le_of_lt hba) (hle a (List.mem_cons_self _ _))
          · exact hle e (List.mem_cons_of_mem _ h)
    · rw [if_neg hba]
      obtain ⟨hmem, hle⟩ := ih b
      refine ⟨List.mem_cons_of_mem _ hmem, ?_⟩
      intro e he
      rcases List.mem_cons.1 he with h | h
      · rw [h]
        exact le_trans (not_lt.1 hba) (hle b (List.mem_cons_self _ _))
      · exact hle e h

theorem is_min_unique {v : List ℚ} {m m' : ℚ} (h : is_min v m) (h' : is_min v m') :
    m = m' :=
  le_antisymm (h.2 m' h'.1) (h'.2 m h.1)

theorem is_max_unique {v : List ℚ} {M M' : ℚ} (h : is_max v M) (h' : is_max v M') :
    M = M' :=
  le_antisymm (h'.2 M h.1) (h.2 M' h'.1)

/-- What `vfloat2vuchar` does on a sequence with minimum `m` and maximum `M`. -/
theorem vfloat2vuchar_eq (v : List ℚ) (m M : ℚ) (hmin : is_min v m) (hmax : is_max v M) :
    vfloat2vuchar v =
      if M - m = 0 then some (List.replicate v.length 0)
      else vfloat2vuchar_loop (255 / (M - m)) m v := by
  cases v with
  | nil => exact absurd hmin.1 (List.not_mem_nil _)
  | cons a rest =>
    have h1 : min_value a rest = m := is_min_unique (min_value_is_min a rest) hmin
    have h2 : max_value a rest = M := is_max_unique (max_value_is_max a rest) hmax
    simp only [vfloat2vuchar, h1, h2]

theorem scaled_bounds (m M e : ℚ) (hme : m ≤ e) (heM : e ≤ M) (hne : M ≠ m) :
    0 ≤ ⌊255 / (M - m) * (e - m)⌋ ∧ ⌊255 / (M - m) * (e - m)⌋ ≤ 255 := by
  have hlt : m < M := lt_of_le_of_ne (le_trans hme heM) (Ne.symm hne)
  have hd : 0 < M - m := sub_pos.2 hlt
  have hcoef : 0 ≤ 255 / (M - m) := div_nonneg (by norm_num) (le_of_lt hd)
  have h0 : 0 ≤ 255 / (M - m) * (e - m) := mul_nonneg hcoef (sub_nonneg.2 hme)
  have h1 : 255 / (M - m) * (e - m) ≤ 255 := by
    calc 255 / (M - m) * (e - m) ≤ 255 / (M - m) * (M - m) :=
          mul_le_mul_of_nonneg_left (by linarith) hcoef
      _ = 255 := div_mul_cancel₀ _ (ne_of_gt hd)
  constructor
  · exact Int.floor_nonneg.2 h0
  · have : ⌊255 / (M - m) * (e - m)⌋ < 256 := by
      rw [Int.floor_lt]
      push_cast
      linarith
    omega

theorem scaled_mono (m M e e' : ℚ) (hmM : m ≤ M) (hee : e ≤ e') :
    ⌊255 / (M - m) * (e - m)⌋.toNat ≤ ⌊255 / (M - m) * (e' - m)⌋.toNat := by
  have hcoef : 0 ≤ 255 / (M - m) := div_nonneg (by norm_num) (sub_nonneg.2 hmM)
  have h : 255 / (M - m) * (e - m) ≤ 255 / (M - m) * (e' - m) :=
    mul_le_mul_of_nonneg_left (by linarith) hcoef
  have := Int.floor_mono h
  omega

theorem vfloat2vuchar_loop_eq (coef m : ℚ) (l : List ℚ)
    (h : ∀ e ∈ l, 0 ≤ ⌊coef * (e - m)⌋ ∧ ⌊coef * (e - m)⌋ ≤ 255) :
    vfloat2vuchar_loop coef m l = some (l.map (fun e => ⌊coef * (e - m)⌋.toNat)) := by
  induction l with
  | nil => rfl
  | cons e rest ih =>
    have he := h e (List.mem_cons_self _ _)
    have hrest := ih (fun e' he' => h e' (List.mem_cons_of_mem _ he'))
    have hconv : to_uchar ⌊coef * (e - m)⌋ = some ⌊coef * (e - m)⌋.toNat := by
      unfold to_uchar
      rw [if_pos ⟨he.1, by omega⟩]
    simp only [vfloat2vuchar_loop, hconv, hrest, List.map_cons]

theorem vfloat2vuchar_nonflat (v : List ℚ) (m M : ℚ) (hmin : is_min v m)
    (hmax : is_max v M) (hne : M ≠ m) :
    vfloat2vuchar v = some (v.map (fun e => ⌊255 / (M - m) * (e - m)⌋.toNat)) := by
  rw [vfloat2vuchar_eq v m M hmin hmax, if_neg (sub_ne_zero.2 hne)]
  exact vfloat2vuchar_loop_eq _ _ _
    (fun e he => scaled_bounds m M e (hmin.2 e he) (hmax.2 e he) hne)

theorem vfloat2vuchar_flat (v : List ℚ) (m : ℚ) (hmin : is_min v m) (hmax : is_max v m) :
    vfloat2vuchar v = some (List.replicate v.length 0) := by
  rw [vfloat2vuchar_eq v m m hmin hmax, if_pos (sub_self m)]

theorem getD_map_zero (f : ℚ → Nat) (v : List ℚ) (i : Nat) (hi : i < v.length) :
    (v.map f).getD i 0 = f (v.getD i 0) := by
  simp [List.getD_eq_getElem?_getD, List.getElem?_eq_getElem hi]

theorem getD_replicate_zero (n i : Nat) : (List.replicate n 0).getD i 0 = 0 := by
  simp only [List.getD_eq_getElem?_getD, List.getElem?_replicate]
  split <;> rfl

theorem getD_mem_of_lt (v : List ℚ) (i : Nat) (hi : i < v.length) : v.getD i 0 ∈ v := by
  simp only [List.getD_eq_getElem?_getD, List.getElem?_eq_getElem hi, Option.getD_some]
  exact List.getElem_mem hi

/-- C14: on a non-empty sequence whose maximum equals its minimum,
`vfloat2vuchar` returns as many bytes as the sequence has elements, all 0. -/
theorem vfloat2vuchar_flat_band (v : List ℚ) (m : ℚ) (_hne : v ≠ [])
    (hmin : is_min v m) (hmax : is_max v m) :
    vfloat2vuchar v = some (List.replicate v.length 0) ∧
    ∃ out, vfloat2vuchar v = some out ∧ out.length = v.length ∧ ∀ b ∈ out, b = 0 := by
  have h := vfloat2vuchar_eq v m m hmin hmax
  rw [if_pos (sub_self m)] at h
  refine ⟨h, _, h, List.length_replicate _ _, ?_⟩
  intro b hb
  exact (List.mem_replicate.1 hb).2

/-- Witness of C14: `[5, 5, 5, 5]` gives `[0, 0, 0, 0]`. -/
theorem vfloat2vuchar_flat_band_witness :
    (([5, 5, 5, 5] : List ℚ) ≠ [] ∧ is_min [5, 5, 5, 5] 5 ∧ is_max [5, 5, 5, 5] 5) ∧
    vfloat2vuchar [5, 5, 5, 5] = some [0, 0, 0, 0] :=
  ⟨by decide,
    (vfloat2vuchar_flat_band [5, 5, 5, 5] 5 (by decide) (by decide) (by decide)).1⟩

/-- C15: on a sequence with minimum `m` and maximum `M ≠ m`, `vfloat2vuchar`
returns, at every position `i`, `floor(coef * (v[i] - m))` with
`coef = 255 / (M - m)`, a value in `[0, 255]`. -/
theorem vfloat2vuchar_scaled (v : List ℚ) (m M : ℚ) (hmin : is_min v m)
    (hmax : is_max v M) (hne : M ≠ m) :
    vfloat2vuchar v = some (v.map (fun e => ⌊255 / (M - m) * (e - m)⌋.toNat)) ∧
    (∀ e ∈ v, 0 ≤ ⌊255 / (M - m) * (e - m)⌋ ∧ ⌊255 / (M - m) * (e - m)⌋ ≤ 255) ∧
    ∃ out, vfloat2vuchar v = some out ∧ out.length = v.length ∧
      ∀ i, i < v.length →
        ((out.getD i 0 : Nat) : Int) = ⌊255 / (M - m) * (v.getD i 0 - m)⌋ := by
  have hb : ∀ e ∈ v, 0 ≤ ⌊255 / (M - m) * (e - m)⌋ ∧ ⌊255 / (M - m) * (e - m)⌋ ≤ 255 :=
    fun e he => scaled_bounds m M e (hmin.2 e he) (hmax.2 e he) hne
  have h := vfloat2vuchar_nonflat v m M hmin hmax hne
  refine ⟨h, hb, _, h, List.length_map _ _, ?_⟩
  intro i hi
  rw [getD_map_zero _ v i hi]
  exact Int.toNat_of_nonneg (hb _ (getD_mem_of_lt v i hi)).1

/-- Witness of C15: `[0, 1, 2, 3, 4]` gives `[0, 63, 127, 191, 255]`. -/
theorem vfloat2vuchar_scaled_witness :
    (is_min [0, 1, 2, 3, 4] 0 ∧ is_max [0, 1, 2, 3, 4] 4 ∧ (4 : ℚ) ≠ 0) ∧
    vfloat2vuchar [0, 1, 2, 3, 4] = some [0, 63, 127, 191, 255] := by
  have h := (vfloat2vuchar_scaled [0, 1, 2, 3, 4] 0 4 (by decide) (by decide)
    (by decide)).1
  have f0 : ⌊(255 : ℚ) / (4 - 0) * (0 - 0)⌋ = 0 := by
    rw [Int.floor_eq_iff]
    norm_num
  have f1 : ⌊(255 : ℚ) / (4 - 0) * (1 - 0)⌋ = 63 := by
    rw [Int.floor_eq_iff]
    norm_num
  have f2 : ⌊(255 : ℚ) / (4 - 0) * (2 - 0)⌋ = 127 := by
    rw [Int.floor_eq_iff]
    norm_num
  have f3 : ⌊(255 : ℚ) / (4 - 0) * (3 - 0)⌋ = 191 := by
    rw [Int.floor_eq_iff]
    norm_num
  have f4 : ⌊(255 : ℚ) / (4 - 0) * (4 - 0)⌋ = 255 := by
    rw [Int.floor_eq_iff]
    norm_num
  simp only [List.map_cons, List.map_nil, f0, f1, f2, f3, f4] at h
  exact ⟨by decide, h⟩

/-- C16 at its failing input: on the empty sequence `vfloat2vuchar` reads
`*minmax.first` past the end of `v` and has no defined result. -/
theorem vfloat2vuchar_empty : vfloat2vuchar [] = none := rfl

/-- C18: `clear()` leaves `bands` empty and every other member as it was. -/
theorem clear_frame (self : gdal) :
    (clear self).bands = [] ∧
    (clear self).width = self.width ∧
    (clear self).height = self.height ∧
    (clear self).transform = self.transform ∧
    (clear self).utm_zone = self.utm_zone ∧
    (clear self).utm_north = self.utm_north ∧
    (clear self).custom_x_origin = self.custom_x_origin ∧
    (clear self).custom_y_origin = self.custom_y_origin ∧
    (clear self).names = self.names :=
  ⟨rfl, rfl, rfl, rfl, rfl, rfl, rfl, rfl, rfl⟩

/-- C20: on a non-empty sequence `vfloat2vuchar` returns a sequence of the same
length that keeps the order: `v[i] ≤ v[j]` gives `output[i] ≤ output[j]`. -/
theorem vfloat2vuchar_monotone (v : List ℚ) (hne : v ≠ []) :
    ∃ out, vfloat2vuchar v = some out ∧ out.length = v.length ∧
      ∀ i j, i < v.length → j < v.length → v.getD i 0 ≤ v.getD j 0 →
        out.getD i 0 ≤ out.getD j 0 := by
  cases v with
  | nil => exact absurd rfl hne
  | cons a rest =>
    have hmin := min_value_is_min a rest
    have hmax := max_value_is_max a rest
    by_cases hflat : max_value a rest = min_value a rest
    · rw [hflat] at hmax
      refine ⟨_, vfloat2vuchar_flat _ _ hmin hmax, List.length_replicate _ _, ?_⟩
      intro i j _ _ _
      rw [getD_replicate_zero, getD_replicate_zero]
    · refine ⟨_, vfloat2vuchar_nonflat _ _ _ hmin hmax hflat, List.length_map _ _, ?_⟩
      intro i j hi hj hij
      rw [getD_map_zero _ _ i hi, getD_map_zero _ _ j hj]
      exact scaled_mono _ _ _ _ (hmin.2 _ hmax.1) hij

/-- Witness of C20: in `[3, 1, 2]`, `v[1] ≤ v[2]` and so do the outputs. -/
theorem vfloat2vuchar_monotone_witness :
    (([3, 1, 2] : List ℚ) ≠ [] ∧ ([3, 1, 2] : List ℚ).getD 1 0 ≤ ([3, 1, 2] : List ℚ).getD 2 0) ∧
    ∃ out, vfloat2vuchar [3, 1, 2] = some out ∧ out.length = 3 ∧
      out.getD 1 0 ≤ out.getD 2 0 := by
  obtain ⟨out, hout, hlen, hmono⟩ := vfloat2vuchar_monotone [3, 1, 2] (by decide)
  exact ⟨by decide, out, hout, hlen, hmono 1 2 (by decide) (by decide) (by decide)⟩

/-! ## Rounding to `double` and to `float` -/

theorem abs_round_half_even_sub_le (s : ℚ) : |(round_half_even s : ℚ) - s| ≤ 1 / 2 := by
  have h1 : (⌊s⌋ : ℚ) ≤ s := Int.floor_le s
  have h2 : s < ⌊s⌋ + 1 := Int.lt_floor_add_one s
  unfold round_half_even
  simp only
  rw [abs_le]
  split_ifs <;> push_cast <;> constructor <;> linarith

theorem round_half_even_eq (s : ℚ) (n : Int) (h1 : (n : ℚ) - 1 / 2 < s)
    (h2 : s < n + 1 / 2) : round_half_even s = n := by
  by_cases h : (n : ℚ) ≤ s
  · have hfl : ⌊s⌋ = n := Int.floor_eq_iff.2 ⟨h, by linarith⟩
    unfold round_half_even
    simp only [hfl]
    rw [if_pos (by linarith)]
  · have hfl : ⌊s⌋ = n - 1 := Int.floor_eq_iff.2 ⟨by push_cast; linarith, by push_cast; linarith⟩
    unfold round_half_even
    simp only [hfl]
    rw [if_neg (by push_cast; linarith), if_pos (by push_cast; linarith)]
    ring

theorem round_half_even_intCast (n : Int) : round_half_even (n : ℚ) = n :=
  round_half_even_eq _ n (by linarith) (by linarith)

theorem round_half_even_tie (f : Int) :
    round_half_even ((f : ℚ) + 1 / 2) = if f % 2 = 0 then f else f + 1 := by
  have hfl : ⌊(f : ℚ) + 1 / 2⌋ = f := Int.floor_eq_iff.2 ⟨by linarith, by linarith⟩
  unfold round_half_even
  simp only [hfl]
  rw [if_neg (by linarith), if_neg (by linarith)]

theorem fl_zero (p : Nat) : fl p 0 = 0 := by
  simp [fl]

theorem log2_eq (q : ℚ) (e : Int) (hlo : (2 : ℚ) ^ e ≤ q) (hhi : q < (2 : ℚ) ^ (e + 1)) :
    Int.log 2 q = e := by
  have hq : 0 < q := lt_of_lt_of_le (zpow_pos (by norm_num) e) hlo
  apply le_antisymm
  · have : Int.log 2 q < e + 1 := by
      rw [← Int.lt_zpow_iff_log_lt (by norm_num) hq]
      simpa using hhi
    omega
  · rw [← Int.zpow_le_iff_le_log (by norm_num) hq]
    simpa using hlo

theorem fl_eval (p : Nat) (q : ℚ) (e n : Int) (hlo : (2 : ℚ) ^ e ≤ q)
    (hhi : q < (2 : ℚ) ^ (e + 1))
    (hn : round_half_even (q / 2 ^ (e - ((p : Int) - 1))) = n) :
    fl p q = n * 2 ^ (e - ((p : Int) - 1)) := by
  have hq : 0 < q := lt_of_lt_of_le (zpow_pos (by norm_num) e) hlo
  unfold fl
  rw [if_neg (ne_of_gt hq)]
  simp only [abs_of_pos hq, log2_eq q e hlo hhi, hn]

theorem fl_err (p : Nat) (q : ℚ) : |fl p q - q| ≤ |q| / 2 ^ p := by
  by_cases hq : q = 0
  · simp [hq, fl_zero]
  · have habs : 0 < |q| := abs_pos.2 hq
    have hlog : (2 : ℚ) ^ Int.log 2 |q| ≤ |q| := by
      simpa using Int.zpow_log_le_self (b := 2) (by norm_num) habs
    unfold fl
    rw [if_neg hq]
    simp only
    set k : Int := Int.log 2 |q| - ((p : Int) - 1) with hk
    have hkpos : (0 : ℚ) < 2 ^ k := zpow_pos (by norm_num) k
    have hr := abs_round_half_even_sub_le (q / 2 ^ k)
    have heq : (round_half_even (q / 2 ^ k) : ℚ) * 2 ^ k - q =
        ((round_half_even (q / 2 ^ k) : ℚ) - q / 2 ^ k) * 2 ^ k := by
      field_simp
    rw [heq, abs_mul, abs_of_pos hkpos]
    have hk2 : (2 : ℚ) ^ k = 2 ^ Int.log 2 |q| * 2 / 2 ^ p := by
      rw [hk, zpow_sub₀ (by norm_num), zpow_sub₀ (by norm_num)]
      simp [zpow_natCast]
      field_simp
    calc |(round_half_even (q / 2 ^ k) : ℚ) - q / 2 ^ k| * 2 ^ k
        ≤ 1 / 2 * 2 ^ k := mul_le_mul_of_nonneg_right hr (le_of_lt hkpos)
      _ = 2 ^ Int.log 2 |q| / 2 ^ p := by rw [hk2]; ring
      _ ≤ |q| / 2 ^ p := div_le_div_of_nonneg_right hlog (by positivity)

theorem fl_natCast (p n : Nat) (h : n < 2 ^ p) : fl p (n : ℚ) = n := by
  rcases Nat.eq_zero_or_pos n with h0 | hpos
  · subst h0
    simp [fl_zero]
  · have hn0 : n ≠ 0 := by omega
    have hlo : 2 ^ Nat.log 2 n ≤ n := Nat.pow_log_le_self 2 hn0
    have hhi : n < 2 ^ (Nat.log 2 n + 1) := Nat.lt_pow_succ_log_self (by norm_num) n
    have hep : Nat.log 2 n < p := by
      by_contra hc
      have : 2 ^ p ≤ 2 ^ Nat.log 2 n := Nat.pow_le_pow_right (by norm_num) (by omega)
      omega
    obtain ⟨j, hj⟩ : ∃ j : Nat, p = Nat.log 2 n + 1 + j := ⟨p - (Nat.log 2 n + 1), by omega⟩
    have hk : (Nat.log 2 n : Int) - ((p : Int) - 1) = -(j : Int) := by omega
    have hval : (n : ℚ) / 2 ^ ((Nat.log 2 n : Int) - ((p : Int) - 1)) =
        ((n * 2 ^ j : Int) : ℚ) := by
      rw [hk, zpow_neg, zpow_natCast]
      push_cast
      field_simp
    have hlo' : (2 : ℚ) ^ (Nat.log 2 n : Int) ≤ (n : ℚ) := by
      rw [zpow_natCast]
      exact_mod_cast hlo
    have hhi' : (n : ℚ) < (2 : ℚ) ^ ((Nat.log 2 n : Int) + 1) := by
      have : ((Nat.log 2 n : Int) + 1) = ((Nat.log 2 n + 1 : Nat) : Int) := by push_cast; rfl
      rw [this, zpow_natCast]
      exact_mod_cast hhi
    rw [fl_eval p n (Nat.log 2 n) (n * 2 ^ j) hlo' hhi'
      (by rw [hval]; exact round_half_even_intCast _)]
    rw [hk, zpow_neg, zpow_natCast]
    push_cast
    field_simp

theorem fl64_natCast (n : Nat) (h : n < 2 ^ 53) : fl64 (n : ℚ) = n := fl_natCast 53 n h

theorem fl32_natCast (n : Nat) (h : n < 2 ^ 24) : fl32 (n : ℚ) = n := fl_natCast 24 n h

theorem fl64_zero : fl64 0 = 0 := fl_zero 53

theorem fl32_zero : fl32 0 = 0 := fl_zero 24

/-- The `double` nearest to `1/10` is `double_tenth`. -/
theorem fl64_tenth : fl64 (1 / 10) = double_tenth := by
  have h := fl_eval 53 (1 / 10) (-4) 7205759403792794 (by norm_num) (by norm_num)
    (round_half_even_eq _ _ (by norm_num) (by norm_num))
  rw [fl64, h, double_tenth]
  norm_num

/-- The `double` product `3 * 0.1` is `0.30000000000000004`. -/
theorem fl64_three_tenths :
    fl64 (3 * double_tenth) = 1351079888211149 / 4503599627370496 := by
  have hs : (3 * double_tenth) / 2 ^ ((-2 : Int) - (((53 : Nat) : Int) - 1)) =
      ((5404319552844595 : Int) : ℚ) + 1 / 2 := by
    rw [double_tenth]
    norm_num
  have h := fl_eval 53 (3 * double_tenth) (-2) 5404319552844596
    (by rw [double_tenth]; norm_num) (by rw [double_tenth]; norm_num)
    (by rw [hs, round_half_even_tie]; decide)
  rw [fl64, h]
  norm_num

/-- The `double` quotient `0.30000000000000004 / 0.1` is `3 + 2^-51`. -/
theorem fl64_three_tenths_div :
    fl64 (1351079888211149 / 4503599627370496 / double_tenth) =
      6755399441055745 / 2251799813685248 := by
  have h := fl_eval 53 (1351079888211149 / 4503599627370496 / double_tenth) 1
    6755399441055745 (by rw [double_tenth]; norm_num) (by rw [double_tenth]; norm_num)
    (round_half_even_eq _ _ (by rw [double_tenth]; norm_num) (by rw [double_tenth]; norm_num))
  rw [fl64, h]
  norm_num

/-- The `double` `3 + 2^-51` is kept by a rounding to `double`. -/
theorem fl64_three_ulp :
    fl64 (6755399441055745 / 2251799813685248) = 6755399441055745 / 2251799813685248 := by
  have h := fl_eval 53 (6755399441055745 / 2251799813685248) 1 6755399441055745
    (by norm_num) (by norm_num) (round_half_even_eq _ _ (by norm_num) (by norm_num))
  rw [fl64, h]
  norm_num

/-! ## The index formulas in `double` arithmetic -/

theorem index_raster_double_of_scale (self : gdal) (x y : ℚ)
    (hx : get_scale_x self ≠ 0) (hy : get_scale_y self ≠ 0) :
    index_raster_double self x y =
      to_size_t ⌈fl64 (fl64 (x / get_scale_x self) +
        fl64 (fl64 (y / get_scale_y self) * fl64 (self.width : ℚ)))⌉ := by
  simp [index_raster_double, hx, hy]

theorem index_utm_double_of_scale (self : gdal) (x y : ℚ)
    (hx : get_scale_x self ≠ 0) (hy : get_scale_y self ≠ 0) :
    index_utm_double self x y =
      to_size_t ⌈fl64 (fl64 (fl64 (x - get_utm_pose_x self) / get_scale_x self) +
        fl64 (fl64 (fl64 (y - get_utm_pose_y self) / get_scale_y self) *
          fl64 (self.width : ℚ)))⌉ := by
  simp [index_utm_double, hx, hy]

theorem index_raster_double_zero (self : gdal)
    (hx : get_scale_x self ≠ 0) (hy : get_scale_y self ≠ 0) :
    index_raster_double self 0 0 = some 0 := by
  rw [index_raster_double_of_scale self 0 0 hx hy]
  simp only [zero_div, fl64_zero, zero_mul, add_zero, Int.ceil_zero]
  exact to_size_t_natCast 0 (by decide)

theorem index_utm_double_origin (self : gdal)
    (hx : get_scale_x self ≠ 0) (hy : get_scale_y self ≠ 0) :
    index_utm_double self (get_utm_pose_x self) (get_utm_pose_y self) = some 0 := by
  rw [index_utm_double_of_scale self _ _ hx hy]
  simp only [sub_self, zero_div, fl64_zero, zero_mul, add_zero, Int.ceil_zero]
  exact to_size_t_natCast 0 (by decide)

theorem store_tenth_scale :
    get_scale_x store_tenth = double_tenth ∧ get_scale_y store_tenth = double_tenth := by
  have h : |double_tenth| = double_tenth := abs_of_pos (by rw [double_tenth]; norm_num)
  exact ⟨h, h⟩

theorem fl64_one : fl64 1 = 1 := by
  simpa using fl64_natCast 1 (by norm_num)

theorem fl64_two : fl64 2 = 2 := by
  simpa using fl64_natCast 2 (by norm_num)

theorem fl64_three : fl64 3 = 3 := by
  simpa using fl64_natCast 3 (by norm_num)

/-- The `double` value that `index_utm(11, 21)` hands to the `size_t`
conversion at the north-up store (origin `(10, 20)`, scale `(1, 1)`, width 2). -/
theorem north_up_utm_value :
    ⌈fl64 (fl64 (fl64 ((11 : ℚ) - 10) / 1) + fl64 (fl64 (fl64 ((21 : ℚ) - 20) / 1) * fl64 2))⌉ = 3 := by
  norm_num [fl64_one, fl64_two, fl64_three]

/-- C12, as stated, fails: at the north-up store (`sy = -1`, width 2, origin
`(10, 20)`) `index_utm(11, 21)` is 3, while `ceil((x-x0)/sx + ((y-y0)/sy)*width)`
with the scale entries of the transform is -1. -/
theorem index_utm_uses_abs_scale :
    store_north_up.transform.a1 ≠ 0 ∧ store_north_up.transform.a5 ≠ 0 ∧
    index_utm_double store_north_up 11 21 = some 3 ∧
    ⌈((11 : ℚ) - store_north_up.transform.a0) / store_north_up.transform.a1 +
      (21 - store_north_up.transform.a3) / store_north_up.transform.a5 *
        (store_north_up.width : ℚ)⌉ = -1 := by
  refine ⟨by decide, by decide, ?_, ?_⟩
  · rw [index_utm_double_of_scale _ _ _ (by simp [store_north_up_scale])
      (by simp [store_north_up_scale]), to_size_t_eq_some_iff]
    refine ⟨?_, by decide⟩
    rw [store_north_up_scale.1, store_north_up_scale.2]
    simp only [get_utm_pose_x, get_utm_pose_y, store_north_up, Nat.cast_ofNat]
    rw [north_up_utm_value]
  · simp only [store_north_up]
    rw [Int.ceil_eq_iff]
    norm_num

/-- C12, amended: `index_utm(x, y)` is `index_raster(x - x0, y - y0)`, with
`(x0, y0)` the transform origin and the differences the `double` differences;
with non-zero scale entries `sx`, `sy` it returns `n` exactly when `n < 2^64`
and `n` is `ceil((x-x0)/|sx| + ((y-y0)/|sy|)*width)`, taken with the absolute
values of the entries and every operation rounded to `double`. -/
theorem index_utm_formula (self : gdal) (x y : ℚ) :
    index_utm_double self x y =
      index_raster_double self (fl64 (x - self.transform.a0))
        (fl64 (y - self.transform.a3)) ∧
    (self.transform.a1 ≠ 0 → self.transform.a5 ≠ 0 → ∀ n : Nat,
      index_utm_double self x y = some n ↔
        ((n : Int) =
            ⌈fl64 (fl64 (fl64 (x - self.transform.a0) / |self.transform.a1|) +
              fl64 (fl64 (fl64 (y - self.transform.a3) / |self.transform.a5|) *
                fl64 (self.width : ℚ)))⌉ ∧
          n < SIZE_MOD)) := by
  refine ⟨rfl, fun hsx hsy n => ?_⟩
  have hx : get_scale_x self ≠ 0 := by simpa [get_scale_x] using hsx
  have hy : get_scale_y self ≠ 0 := by simpa [get_scale_y] using hsy
  rw [index_utm_double_of_scale self x y hx hy, to_size_t_eq_some_iff]
  rfl

/-- Witness of C12 amended, at the north-up store with origin `(10, 20)`:
`index_utm(11, 21)` is 3, and so is `index_raster(11 - 10, 21 - 20)`. -/
theorem index_utm_formula_witness :
    (store_north_up.transform.a1 ≠ 0 ∧ store_north_up.transform.a5 ≠ 0) ∧
    index_utm_double store_north_up 11 21 = some 3 ∧
    index_raster_double store_north_up (fl64 (11 - 10)) (fl64 (21 - 20)) = some 3 :=
  have h3 : index_utm_double store_north_up 11 21 = some 3 :=
    ((index_utm_formula store_north_up 11 21).2 (by decide) (by decide) 3).2
      ⟨by simp only [store_north_up, Nat.cast_ofNat]
          norm_num [fl64_one, fl64_two, fl64_three],
        by decide⟩
  ⟨by decide, h3, (index_utm_formula store_north_up 11 21).1 ▸ h3⟩

/-- With unit scale every `double` operation of `index_raster` on a column
`c` and a row `r` is exact as long as the flat index is below `2^53`. -/
theorem index_raster_double_unit (self : gdal) (c r : Nat)
    (hx : get_scale_x self = 1) (hy : get_scale_y self = 1)
    (hb : r * self.width + c < 2 ^ 53) :
    index_raster_double self (fl64 (c * get_scale_x self)) (fl64 (r * get_scale_y self)) =
      some (r * self.width + c) := by
  have hc : c < 2 ^ 53 := Nat.lt_of_le_of_lt (Nat.le_add_left c _) hb
  have hrw : r * self.width < 2 ^ 53 := Nat.lt_of_le_of_lt (Nat.le_add_right _ c) hb
  have hprod : fl64 (fl64 (fl64 (r : ℚ)) * fl64 (self.width : ℚ)) =
      ((r * self.width : Nat) : ℚ) := by
    rcases Nat.eq_zero_or_pos r with hr0 | hrpos
    · subst hr0
      simp [fl64_zero]
    · rcases Nat.eq_zero_or_pos self.width with hw0 | hwpos
      · rw [hw0]
        simp [fl64_zero]
      · have hr : r < 2 ^ 53 :=
          Nat.lt_of_le_of_lt (Nat.le_mul_of_pos_right r hwpos) hrw
        have hw : self.width < 2 ^ 53 :=
          Nat.lt_of_le_of_lt (Nat.le_mul_of_pos_left self.width hrpos) hrw
        rw [fl64_natCast r hr, fl64_natCast r hr, fl64_natCast self.width hw,
          ← Nat.cast_mul, fl64_natCast _ hrw]
  rw [index_raster_double_of_scale self _ _ (by rw [hx]; norm_num) (by rw [hy]; norm_num),
    hx, hy]
  simp only [mul_one, div_one]
  rw [fl64_natCast c hc, fl64_natCast c hc, hprod, ← Nat.cast_add, fl64_natCast _ (by omega),
    Int.ceil_natCast, Nat.add_comm]
  exact to_size_t_natCast _ (lt_trans hb (by decide))

/-- C13, as stated, fails: at pixel scale `0.1`, column 3 of row 0 is handed to
`index_raster` as the `double` product `3 * 0.1 = 0.30000000000000004`, whose
quotient by `0.1` is above 3, and the index is 4, not `0 * width + 3`; and in
exact arithmetic column `2^64` has an index that no `size_t` holds. -/
theorem index_raster_aligned_rounds_up :
    get_scale_x store_tenth ≠ 0 ∧ get_scale_y store_tenth ≠ 0 ∧
    index_raster_double store_tenth (fl64 (((3 : Nat) : ℚ) * get_scale_x store_tenth))
      (fl64 (((0 : Nat) : ℚ) * get_scale_y store_tenth)) = some 4 ∧
    (4 : Nat) ≠ 0 * store_tenth.width + 3 ∧
    index_raster store_north_up (((2 ^ 64 : Nat) : ℚ) * get_scale_x store_north_up)
        (((0 : Nat) : ℚ) * get_scale_y store_north_up) ≠
      some (0 * store_north_up.width + 2 ^ 64) := by
  have hx : get_scale_x store_tenth ≠ 0 := by
    rw [store_tenth_scale.1, double_tenth]
    norm_num
  have hy : get_scale_y store_tenth ≠ 0 := by
    rw [store_tenth_scale.2, double_tenth]
    norm_num
  have hnx : get_scale_x store_north_up ≠ 0 := by simp [store_north_up_scale]
  have hny : get_scale_y store_north_up ≠ 0 := by simp [store_north_up_scale]
  refine ⟨hx, hy, ?_, by decide, fun h => ?_⟩
  · rw [index_raster_double_of_scale _ _ _ hx hy, store_tenth_scale.1, store_tenth_scale.2]
    simp only [Nat.cast_ofNat, Nat.cast_zero, zero_mul, fl64_zero, zero_div, add_zero]
    rw [fl64_three_tenths, fl64_three_tenths_div, fl64_three_ulp, to_size_t_eq_some_iff]
    refine ⟨?_, by decide⟩
    rw [eq_comm, Int.ceil_eq_iff]
    norm_num
  · rw [index_raster_of_scale _ _ _ hnx hny, to_size_t_eq_some_iff] at h
    exact absurd h.2 (by decide)

/-- C13, amended: with a non-zero scale, `index_raster(0, 0)` and
`index_utm(x0, y0)` are 0 in the `double` arithmetic of the source; with unit
scale and a flat index `r * width + c` below `2^53`,
`index_raster(c*scale_x, r*scale_y)` is `r * width + c` in `double` arithmetic;
and in exact arithmetic, for a column `c` and a row `r` whose flat index is
below `2^64`, `index_raster(c*scale_x, r*scale_y)` and
`index_utm(x0 + c*scale_x, y0 + r*scale_y)` are `r * width + c`. -/
theorem index_cell_aligned (self : gdal) (c r : Nat)
    (hx : get_scale_x self ≠ 0) (hy : get_scale_y self ≠ 0) :
    index_raster_double self 0 0 = some 0 ∧
    index_utm_double self (get_utm_pose_x self) (get_utm_pose_y self) = some 0 ∧
    (get_scale_x self = 1 → get_scale_y self = 1 → r * self.width + c < 2 ^ 53 →
      index_raster_double self (fl64 (c * get_scale_x self))
        (fl64 (r * get_scale_y self)) = some (r * self.width + c)) ∧
    index_raster self 0 0 = some 0 ∧
    index_utm self (get_utm_pose_x self) (get_utm_pose_y self) = some 0 ∧
    (r * self.width + c < SIZE_MOD →
      index_raster self (c * get_scale_x self) (r * get_scale_y self) =
        some (r * self.width + c) ∧
      index_utm self (get_utm_pose_x self + c * get_scale_x self)
        (get_utm_pose_y self + r * get_scale_y self) = some (r * self.width + c)) := by
  have h0 := index_raster_aligned self 0 0 hx hy (by simp [SIZE_MOD])
  simp only [Nat.cast_zero, zero_mul, add_zero] at h0
  refine ⟨index_raster_double_zero self hx hy, index_utm_double_origin self hx hy,
    fun h1x h1y hb => index_raster_double_unit self c r h1x h1y hb, h0, ?_,
    fun hb => ⟨index_raster_aligned self c r hx hy hb, ?_⟩⟩
  · rw [index_utm_eq_index_raster, sub_self, sub_self]
    exact h0
  · rw [index_utm_eq_index_raster, add_sub_cancel_left, add_sub_cancel_left]
    exact index_raster_aligned self c r hx hy hb

/-- Witness of C13 amended, at the 2x2 north-up store with origin `(10, 20)`
and scale `(1, 1)`: the origin has index 0 and column 1 of row 1 has index 3 in
`double` arithmetic, and column 1 of row 1 has index 3 in exact arithmetic. -/
theorem index_cell_aligned_witness :
    (get_scale_x store_north_up ≠ 0 ∧ get_scale_y store_north_up ≠ 0 ∧
      get_scale_x store_north_up = 1 ∧ get_scale_y store_north_up = 1 ∧
      1 * store_north_up.width + 1 < 2 ^ 53 ∧
      1 * store_north_up.width + 1 < SIZE_MOD) ∧
    index_raster_double store_north_up 0 0 = some 0 ∧
    index_utm_double store_north_up 10 20 = some 0 ∧
    index_raster_double store_north_up
        (fl64 (((1 : Nat) : ℚ) * get_scale_x store_north_up))
        (fl64 (((1 : Nat) : ℚ) * get_scale_y store_north_up)) = some 3 ∧
    index_raster store_north_up (((1 : Nat) : ℚ) * get_scale_x store_north_up)
        (((1 : Nat) : ℚ) * get_scale_y store_north_up) = some 3 :=
  have hx : get_scale_x store_north_up ≠ 0 := by simp [store_north_up_scale]
  have hy : get_scale_y store_north_up ≠ 0 := by simp [store_north_up_scale]
  have h := index_cell_aligned store_north_up 1 1 hx hy
  ⟨⟨hx, hy, store_north_up_scale.1, store_north_up_scale.2, by decide, by decide⟩,
    h.1, h.2.1, h.2.2.1 store_north_up_scale.1 store_north_up_scale.2 (by decide),
    (h.2.2.2.2.2 (by decide)).1⟩

/-! ## `vfloat2vuchar` in `float` arithmetic -/

theorem fl_le_of_nonneg (p : Nat) (q : ℚ) (hq : 0 ≤ q) : fl p q ≤ q * (1 + 1 / 2 ^ p) := by
  have h := fl_err p q
  rw [abs_of_nonneg hq, abs_le] at h
  have : q * (1 + 1 / 2 ^ p) = q + q / 2 ^ p := by ring
  linarith [h.2]

theorem fl_ge_of_nonneg (p : Nat) (q : ℚ) (hq : 0 ≤ q) : q * (1 - 1 / 2 ^ p) ≤ fl p q := by
  have h := fl_err p q
  rw [abs_of_nonneg hq, abs_le] at h
  have : q * (1 - 1 / 2 ^ p) = q - q / 2 ^ p := by ring
  linarith [h.1]

theorem fl32_le (q : ℚ) (hq : 0 ≤ q) : fl32 q ≤ q * (10001 / 10000) :=
  le_trans (fl_le_of_nonneg 24 q hq) (mul_le_mul_of_nonneg_left (by norm_num) hq)

theorem fl32_ge (q : ℚ) (hq : 0 ≤ q) : q * (9999 / 10000) ≤ fl32 q :=
  le_trans (mul_le_mul_of_nonneg_left (by norm_num) hq) (fl_ge_of_nonneg 24 q hq)

theorem fl32_nonneg (q : ℚ) (hq : 0 ≤ q) : 0 ≤ fl32 q :=
  le_trans (mul_nonneg hq (by norm_num)) (fl32_ge q hq)

theorem fl64_le (q : ℚ) (hq : 0 ≤ q) : fl64 q ≤ q * (10001 / 10000) :=
  le_trans (fl_le_of_nonneg 53 q hq) (mul_le_mul_of_nonneg_left (by norm_num) hq)

theorem fl64_ge (q : ℚ) (hq : 0 ≤ q) : q * (9999 / 10000) ≤ fl64 q :=
  le_trans (mul_le_mul_of_nonneg_left (by norm_num) hq) (fl_ge_of_nonneg 53 q hq)

theorem fl64_nonneg (q : ℚ) (hq : 0 ≤ q) : 0 ≤ fl64 q :=
  le_trans (mul_nonneg hq (by norm_num)) (fl64_ge q hq)

/-- The `float` that the loop of `vfloat2vuchar` floors is in `[0, 256)`: the
roundings of `diff`, of `coef`, of the difference and of the product move the
exact value, at most 255, by less than one part in a thousand. -/
theorem scaled_float_bounds (m M e : ℚ) (hme : m ≤ e) (heM : e ≤ M)
    (hdiff : fl32 (M - m) ≠ 0) :
    0 ≤ ⌊fl32 (fl32 (fl64 (255 / fl32 (M - m))) * fl32 (e - m))⌋ ∧
    ⌊fl32 (fl32 (fl64 (255 / fl32 (M - m))) * fl32 (e - m))⌋ ≤ 255 := by
  have hD : 0 ≤ M - m := by linarith
  have hdiff0 : 0 ≤ fl32 (M - m) := fl32_nonneg _ hD
  have hdpos : 0 < fl32 (M - m) := lt_of_le_of_ne hdiff0 (Ne.symm hdiff)
  have hDle : (M - m) * (9999 / 10000) ≤ fl32 (M - m) := fl32_ge _ hD
  have hc0 : 0 ≤ 255 / fl32 (M - m) := div_nonneg (by norm_num) hdiff0
  have hc0d : 255 / fl32 (M - m) * fl32 (M - m) = 255 := div_mul_cancel₀ _ (ne_of_gt hdpos)
  have hc1 : 0 ≤ fl64 (255 / fl32 (M - m)) := fl64_nonneg _ hc0
  have hc1le := fl64_le _ hc0
  have hcoef : 0 ≤ fl32 (fl64 (255 / fl32 (M - m))) := fl32_nonneg _ hc1
  have hcoefle := fl32_le _ hc1
  have ha : 0 ≤ e - m := by linarith
  have hd : 0 ≤ fl32 (e - m) := fl32_nonneg _ ha
  have hdle := fl32_le _ ha
  have hprod0 : 0 ≤ fl32 (fl64 (255 / fl32 (M - m))) * fl32 (e - m) := mul_nonneg hcoef hd
  have ht0 := fl32_nonneg _ hprod0
  have htle := fl32_le _ hprod0
  have hcoefle2 : fl32 (fl64 (255 / fl32 (M - m))) ≤
      255 / fl32 (M - m) * (10001 / 10000) ^ 2 := by
    nlinarith
  have hdle2 : fl32 (e - m) * (9999 / 10000) ≤ fl32 (M - m) * (10001 / 10000) := by
    nlinarith
  have hprod : fl32 (fl64 (255 / fl32 (M - m))) * fl32 (e - m) * (9999 / 10000) ≤
      255 * (10001 / 10000) ^ 3 := by
    calc fl32 (fl64 (255 / fl32 (M - m))) * fl32 (e - m) * (9999 / 10000)
        = fl32 (fl64 (255 / fl32 (M - m))) * (fl32 (e - m) * (9999 / 10000)) := by ring
      _ ≤ (255 / fl32 (M - m) * (10001 / 10000) ^ 2) *
          (fl32 (M - m) * (10001 / 10000)) :=
        mul_le_mul hcoefle2 hdle2 (mul_nonneg hd (by norm_num))
          (mul_nonneg hc0 (by norm_num))
      _ = (255 / fl32 (M - m) * fl32 (M - m)) * (10001 / 10000) ^ 3 := by ring
      _ = 255 * (10001 / 10000) ^ 3 := by rw [hc0d]
  have ht : fl32 (fl32 (fl64 (255 / fl32 (M - m))) * fl32 (e - m)) < 256 := by
    norm_num at hprod
    linarith
  refine ⟨Int.floor_nonneg.2 ht0, ?_⟩
  have hlt : ⌊fl32 (fl32 (fl64 (255 / fl32 (M - m))) * fl32 (e - m))⌋ < 256 := by
    rw [Int.floor_lt]
    exact_mod_cast ht
  omega

theorem vfloat2vuchar_float_loop_eq (coef m : ℚ) (l : List ℚ)
    (h : ∀ e ∈ l, 0 ≤ ⌊fl32 (coef * fl32 (e - m))⌋ ∧ ⌊fl32 (coef * fl32 (e - m))⌋ ≤ 255) :
    vfloat2vuchar_float_loop coef m l =
      some (l.map (fun e => ⌊fl32 (coef * fl32 (e - m))⌋.toNat)) := by
  induction l with
  | nil => rfl
  | cons e rest ih =>
    have he := h e (List.mem_cons_self _ _)
    have hrest := ih (fun e' he' => h e' (List.mem_cons_of_mem _ he'))
    have hconv : to_uchar ⌊fl32 (coef * fl32 (e - m))⌋ =
        some ⌊fl32 (coef * fl32 (e - m))⌋.toNat := by
      unfold to_uchar
      rw [if_pos ⟨he.1, by omega⟩]
    simp only [vfloat2vuchar_float_loop, hconv, hrest, List.map_cons]

/-- What `vfloat2vuchar` does, in `float` arithmetic, on a sequence with
minimum `m` and maximum `M`. -/
theorem vfloat2vuchar_float_eq (v : List ℚ) (m M : ℚ) (hmin : is_min v m)
    (hmax : is_max v M) :
    vfloat2vuchar_float v =
      if fl32 (M - m) = 0 then some (List.replicate v.length 0)
      else some (v.map (fun e =>
        ⌊fl32 (fl32 (fl64 (255 / fl32 (M - m))) * fl32 (e - m))⌋.toNat)) := by
  cases v with
  | nil => exact absurd hmin.1 (List.not_mem_nil _)
  | cons a rest =>
    have h1 : min_value a rest = m := is_min_unique (min_value_is_min a rest) hmin
    have h2 : max_value a rest = M := is_max_unique (max_value_is_max a rest) hmax
    simp only [vfloat2vuchar_float, h1, h2]
    split
    · rfl
    · rename_i hne
      exact vfloat2vuchar_float_loop_eq _ _ _
        (fun e he => scaled_float_bounds m M e (hmin.2 e he) (hmax.2 e he) hne)

theorem fl32_seven : fl32 7 = 7 := by
  simpa using fl32_natCast 7 (by norm_num)

/-- The `double` quotient `255.0 / 7`. -/
theorem fl64_coef_seven : fl64 (255 / 7) = 2563432823614903 / 70368744177664 := by
  have h := fl_eval 53 (255 / 7) 5 5126865647229806 (by norm_num) (by norm_num)
    (round_half_even_eq _ _ (by norm_num) (by norm_num))
  rw [fl64, h]
  norm_num

/-- The `float` nearest to the `double` quotient `255.0 / 7`. -/
theorem fl32_coef_seven :
    fl32 (2563432823614903 / 70368744177664) = 9549531 / 262144 := by
  have h := fl_eval 24 (2563432823614903 / 70368744177664) 5 9549531 (by norm_num)
    (by norm_num) (round_half_even_eq _ _ (by norm_num) (by norm_num))
  rw [fl32, h]
  norm_num

/-- The `float` product `coef * 7` is `254.99998`, below 255. -/
theorem fl32_coef_seven_mul : fl32 (9549531 / 262144 * 7) = 16711679 / 65536 := by
  have h := fl_eval 24 (9549531 / 262144 * 7) 7 16711679 (by norm_num) (by norm_num)
    (round_half_even_eq _ _ (by norm_num) (by norm_num))
  rw [fl32, h]
  norm_num

/-- In `float` arithmetic the sequence `[0, 7]` is output as `[0, 254]`: the
position that holds the maximum is output as 254. -/
theorem vfloat2vuchar_float_zero_seven : vfloat2vuchar_float [0, 7] = some [0, 254] := by
  have h70 : fl32 ((7 : ℚ) - 0) = 7 := by
    rw [sub_zero]
    exact fl32_seven
  have hfloor : ⌊(16711679 / 65536 : ℚ)⌋ = 254 := by
    rw [Int.floor_eq_iff]
    norm_num
  rw [vfloat2vuchar_float_eq [0, 7] 0 7 (by decide) (by decide), h70,
    if_neg (by norm_num)]
  simp only [List.map_cons, List.map_nil, sub_self, fl32_zero, mul_zero, Int.floor_zero,
    h70, fl64_coef_seven, fl32_coef_seven, fl32_coef_seven_mul, hfloor]
  rfl

/-- C17, as stated, fails: in the flat band `[5, 5, 5, 5]` every position holds
the maximum, and every output is 0, not 255. -/
theorem vfloat2vuchar_flat_max_is_zero :
    is_max [5, 5, 5, 5] 5 ∧ ([5, 5, 5, 5] : List ℚ).getD 0 0 = 5 ∧
    ¬ ∃ out, vfloat2vuchar_float [5, 5, 5, 5] = some out ∧ out.getD 0 0 = 255 := by
  refine ⟨by decide, by decide, ?_⟩
  rintro ⟨out, hout, h255⟩
  rw [vfloat2vuchar_float_eq [5, 5, 5, 5] 5 5 (by decide) (by decide), sub_self, fl32_zero,
    if_pos rfl] at hout
  injection hout with hout
  subst hout
  exact absurd h255 (by decide)

/-- C17, amended: on a sequence with minimum `m` and maximum `M`,
`vfloat2vuchar` returns an output of the same length that is 0 at every position
that holds `m`; when `M = m` it is 0 at every position, those that hold the
maximum included. -/
theorem vfloat2vuchar_min_flat (v : List ℚ) (m M : ℚ) (hmin : is_min v m)
    (hmax : is_max v M) :
    ∃ out, vfloat2vuchar_float v = some out ∧ out.length = v.length ∧
      (∀ i, i < v.length → v.getD i 0 = m → out.getD i 0 = 0) ∧
      (M = m → ∀ i, i < v.length → out.getD i 0 = 0) := by
  rw [vfloat2vuchar_float_eq v m M hmin hmax]
  by_cases hd : fl32 (M - m) = 0
  · rw [if_pos hd]
    refine ⟨_, rfl, List.length_replicate _ _, ?_, ?_⟩
    · intro i _ _
      exact getD_replicate_zero _ _
    · intro _ i _
      exact getD_replicate_zero _ _
  · rw [if_neg hd]
    refine ⟨_, rfl, List.length_map _ _, ?_, ?_⟩
    · intro i hi hm
      rw [getD_map_zero _ v i hi, hm, sub_self, fl32_zero, mul_zero, fl32_zero]
      rfl
    · intro hMm
      rw [hMm, sub_self] at hd
      exact absurd fl32_zero hd

/-- Witness of C17 amended: in `[0, 7]` the output at position 0, which holds
the minimum, is 0; in the flat band `[5, 5, 5, 5]` the output at position 3 is
0. -/
theorem vfloat2vuchar_min_flat_witness :
    (is_min [0, 7] 0 ∧ is_max [0, 7] 7 ∧ ([0, 7] : List ℚ).getD 0 0 = 0 ∧
      is_min [5, 5, 5, 5] 5 ∧ is_max [5, 5, 5, 5] 5) ∧
    (∃ out, vfloat2vuchar_float [0, 7] = some out ∧ out.length = 2 ∧ out.getD 0 0 = 0) ∧
    ∃ out, vfloat2vuchar_float [5, 5, 5, 5] = some out ∧ out.length = 4 ∧
      out.getD 3 0 = 0 := by
  obtain ⟨out, hout, hlen, hm, _⟩ :=
    vfloat2vuchar_min_flat [0, 7] 0 7 (by decide) (by decide)
  obtain ⟨out5, hout5, hlen5, _, hflat⟩ :=
    vfloat2vuchar_min_flat [5, 5, 5, 5] 5 5 (by decide) (by decide)
  exact ⟨by decide, ⟨out, hout, hlen, hm 0 (by decide) (by decide)⟩,
    ⟨out5, hout5, hlen5, hflat rfl 3 (by decide)⟩⟩

end gdalwrap
